import Mathlib

/-!
Verification of the output-normalization engine of `src/ui/ppt_builder.py`
(repository MultiAgentWeb).  The Python module is shallowly embedded:

* Python values that flow through the engine (JSON results, task outputs)
  are modelled by `PyVal`.
* Strings are Lean `String`s; all scanning is done on `String.data`
  (lists of characters), matching the Python code-point semantics.
* The regular expressions of the module (`BULLET`, `FENCE`, `URL_PATTERN`,
  the splitter/matcher expressions in `_split3`, `_split_recommendation`,
  `_parse_summary_kv_block`) are embedded as hand-written scanners whose
  behaviour mirrors the backtracking semantics of the concrete patterns.
* `json.loads` and `ast.literal_eval` are embedded as recursive-descent
  routines (`jsonLoads`, `litLoads`); JSON/py float literals are not
  modelled (they make the embedded routines fail where Python would
  produce a float) — no claim in scope involves floats.
* Python `str.strip` family is modelled over the ASCII whitespace
  characters (space, TAB, LF, CR, VT, FF); exotic Unicode whitespace is
  out of scope.

The dash characters are kept explicit because the module mixes them:
the split/match regexes use EN DASH (U+2013) and `-`, while the display
strings built by the module use EM DASH (U+2014).
-/

namespace PptBuilder

/-- EN DASH U+2013, the dash appearing in the regex character classes of
`_split3` and `_split_recommendation`. -/
def enDash : Char := Char.ofNat 0x2013

/-- EM DASH U+2014, the dash used in display strings
(`f"{title} — {why}"`, `" — Why: "`, `.strip(" —")`). -/
def emDash : Char := Char.ofNat 0x2014

/-- EM DASH as a one-character string, for building display strings. -/
def emDashS : String := String.mk [emDash]

/-- EN DASH as a one-character string, for building concrete inputs. -/
def enDashS : String := String.mk [enDash]

/-- Apostrophe character (U+0027), used by the Python-literal scanner. -/
def apos : Char := Char.ofNat 39

/-- ASCII whitespace, the model of the Python `str.strip()` default set and
of the regex class `\s`. -/
def isPySpace (c : Char) : Bool :=
  c = ' ' || c = Char.ofNat 9 || c = Char.ofNat 10 || c = Char.ofNat 13 ||
  c = Char.ofNat 11 || c = Char.ofNat 12

/-- Strip characters satisfying `p` from both ends of a character list
(Python `str.strip`). -/
def stripEnds (p : Char → Bool) (cs : List Char) : List Char :=
  ((cs.dropWhile p).reverse.dropWhile p).reverse

/-- Python `s.strip()`. -/
def pyStrip (s : String) : String := String.mk (stripEnds isPySpace s.data)

/-- Python `s.lstrip()`. -/
def pyLStrip (s : String) : String := String.mk (s.data.dropWhile isPySpace)

/-- Python `s.rstrip()`. -/
def pyRStrip (s : String) : String :=
  String.mk ((s.data.reverse.dropWhile isPySpace).reverse)

/-- Python `s.strip(chars)` for an explicit character set. -/
def pyStripSet (set : List Char) (s : String) : String :=
  String.mk (stripEnds (fun c => set.contains c) s.data)

/-- Python `s.lstrip(chars)` for an explicit character set. -/
def pyLStripSet (set : List Char) (s : String) : String :=
  String.mk (s.data.dropWhile (fun c => set.contains c))

/-- Python `s.rstrip(chars)` for an explicit character set. -/
def pyRStripSet (set : List Char) (s : String) : String :=
  String.mk ((s.data.reverse.dropWhile (fun c => set.contains c)).reverse)

/-- ASCII lower-casing, the model of Python `str.lower()` on the inputs in
scope (all headings handled concretely here are ASCII). -/
def charLower (c : Char) : Char :=
  if 'A' ≤ c && c ≤ 'Z' then Char.ofNat (c.toNat + 32) else c

/-- Python `s.lower()` (ASCII model). -/
def pyLower (s : String) : String := String.mk (s.data.map charLower)

/-- Case-insensitive prefix match: if `pat` (given lower-case) is a
case-insensitive prefix of `cs`, return the rest of `cs`. -/
def matchCI : List Char → List Char → Option (List Char)
  | [], cs => some cs
  | _, [] => none
  | p :: ps, c :: cs => if charLower c = p then matchCI ps cs else none

/-- Exact prefix match, returning the rest of the input. -/
def matchPref : List Char → List Char → Option (List Char)
  | [], cs => some cs
  | _, [] => none
  | p :: ps, c :: cs => if c = p then matchPref ps cs else none

/-- Whether `sub` occurs as a substring of `cs` (Python `in`). -/
def containsSub (sub : List Char) : List Char → Bool
  | [] => sub.isEmpty
  | c :: cs => (matchPref sub (c :: cs)).isSome || containsSub sub cs

/-- Python `sub in s`. -/
def pyContains (s sub : String) : Bool := containsSub sub.data s.data

/-- Python `str.splitlines()` restricted to `\n` separators: split on
LF, dropping the trailing empty piece produced by a final newline;
`""` gives `[]`.  (a CR is handled by the `rstrip` applied to every
line by the caller.) -/
def splitNl : List Char → List (List Char)
  | [] => [[]]
  | c :: rest =>
    if c = Char.ofNat 10 then [] :: splitNl rest
    else
      match splitNl rest with
      | l :: ls => (c :: l) :: ls
      | [] => [[c]]

/-- Python `s.splitlines()` (see `splitNl`). -/
def pySplitLines (s : String) : List String :=
  if s.data = [] then []
  else
    let ls := splitNl s.data
    let ls := if s.data.getLast? = some (Char.ofNat 10) then ls.dropLast else ls
    ls.map String.mk

/-- Python `"\n".join(strings)`. -/
def joinNl : List String → String
  | [] => ""
  | [s] => s
  | s :: rest => s ++ String.mk [Char.ofNat 10] ++ joinNl rest

/-- Value model for the Python/JSON data handled by the engine. -/
inductive PyVal where
  | str (s : String)
  | int (n : Int)
  | bool (b : Bool)
  | none
  | list (xs : List PyVal)
  | dict (kvs : List (String × PyVal))

mutual
/-- decidable equality on `PyVal` (written out because `deriving` does not
handle the nested inductive) -/
def decEqPyVal : (a b : PyVal) → Decidable (a = b)
  | PyVal.str a, PyVal.str b =>
    match decEq a b with
    | isTrue h => isTrue (by rw [h])
    | isFalse h => isFalse (by intro hh; injection hh; contradiction)
  | PyVal.int a, PyVal.int b =>
    match decEq a b with
    | isTrue h => isTrue (by rw [h])
    | isFalse h => isFalse (by intro hh; injection hh; contradiction)
  | PyVal.bool a, PyVal.bool b =>
    match decEq a b with
    | isTrue h => isTrue (by rw [h])
    | isFalse h => isFalse (by intro hh; injection hh; contradiction)
  | PyVal.none, PyVal.none => isTrue rfl
  | PyVal.list xs, PyVal.list ys =>
    match decEqPyList xs ys with
    | isTrue h => isTrue (by rw [h])
    | isFalse h => isFalse (by intro hh; injection hh; contradiction)
  | PyVal.dict xs, PyVal.dict ys =>
    match decEqPyKvs xs ys with
    | isTrue h => isTrue (by rw [h])
    | isFalse h => isFalse (by intro hh; injection hh; contradiction)
  | PyVal.str _, PyVal.int _ => isFalse fun h => PyVal.noConfusion h
  | PyVal.str _, PyVal.bool _ => isFalse fun h => PyVal.noConfusion h
  | PyVal.str _, PyVal.none => isFalse fun h => PyVal.noConfusion h
  | PyVal.str _, PyVal.list _ => isFalse fun h => PyVal.noConfusion h
  | PyVal.str _, PyVal.dict _ => isFalse fun h => PyVal.noConfusion h
  | PyVal.int _, PyVal.str _ => isFalse fun h => PyVal.noConfusion h
  | PyVal.int _, PyVal.bool _ => isFalse fun h => PyVal.noConfusion h
  | PyVal.int _, PyVal.none => isFalse fun h => PyVal.noConfusion h
  | PyVal.int _, PyVal.list _ => isFalse fun h => PyVal.noConfusion h
  | PyVal.int _, PyVal.dict _ => isFalse fun h => PyVal.noConfusion h
  | PyVal.bool _, PyVal.str _ => isFalse fun h => PyVal.noConfusion h
  | PyVal.bool _, PyVal.int _ => isFalse fun h => PyVal.noConfusion h
  | PyVal.bool _, PyVal.none => isFalse fun h => PyVal.noConfusion h
  | PyVal.bool _, PyVal.list _ => isFalse fun h => PyVal.noConfusion h
  | PyVal.bool _, PyVal.dict _ => isFalse fun h => PyVal.noConfusion h
  | PyVal.none, PyVal.str _ => isFalse fun h => PyVal.noConfusion h
  | PyVal.none, PyVal.int _ => isFalse fun h => PyVal.noConfusion h
  | PyVal.none, PyVal.bool _ => isFalse fun h => PyVal.noConfusion h
  | PyVal.none, PyVal.list _ => isFalse fun h => PyVal.noConfusion h
  | PyVal.none, PyVal.dict _ => isFalse fun h => PyVal.noConfusion h
  | PyVal.list _, PyVal.str _ => isFalse fun h => PyVal.noConfusion h
  | PyVal.list _, PyVal.int _ => isFalse fun h => PyVal.noConfusion h
  | PyVal.list _, PyVal.bool _ => isFalse fun h => PyVal.noConfusion h
  | PyVal.list _, PyVal.none => isFalse fun h => PyVal.noConfusion h
  | PyVal.list _, PyVal.dict _ => isFalse fun h => PyVal.noConfusion h
  | PyVal.dict _, PyVal.str _ => isFalse fun h => PyVal.noConfusion h
  | PyVal.dict _, PyVal.int _ => isFalse fun h => PyVal.noConfusion h
  | PyVal.dict _, PyVal.bool _ => isFalse fun h => PyVal.noConfusion h
  | PyVal.dict _, PyVal.none => isFalse fun h => PyVal.noConfusion h
  | PyVal.dict _, PyVal.list _ => isFalse fun h => PyVal.noConfusion h

/-- decidable equality on lists of `PyVal` -/
def decEqPyList : (a b : List PyVal) → Decidable (a = b)
  | [], [] => isTrue rfl
  | [], _ :: _ => isFalse fun h => List.noConfusion h
  | _ :: _, [] => isFalse fun h => List.noConfusion h
  | x :: xs, y :: ys =>
    match decEqPyVal x y with
    | isFalse h => isFalse (by intro hh; injection hh; contradiction)
    | isTrue h1 =>
      match decEqPyList xs ys with
      | isTrue h2 => isTrue (by rw [h1, h2])
      | isFalse h => isFalse (by intro hh; injection hh; contradiction)

/-- decidable equality on dict item lists -/
def decEqPyKvs : (a b : List (String × PyVal)) → Decidable (a = b)
  | [], [] => isTrue rfl
  | [], _ :: _ => isFalse fun h => List.noConfusion h
  | _ :: _, [] => isFalse fun h => List.noConfusion h
  | (k1, v1) :: xs, (k2, v2) :: ys =>
    match decEq k1 k2 with
    | isFalse h => isFalse (by intro hh; injection hh with hp _; injection hp; contradiction)
    | isTrue hk =>
      match decEqPyVal v1 v2 with
      | isFalse h => isFalse (by intro hh; injection hh with hp _; injection hp; contradiction)
      | isTrue hv =>
        match decEqPyKvs xs ys with
        | isTrue ht => isTrue (by rw [hk, hv, ht])
        | isFalse h => isFalse (by intro hh; injection hh; contradiction)
end

instance : DecidableEq PyVal := decEqPyVal

/-- `dict.get(key)` (first binding; all dicts built here have unique keys,
matching Python dict construction). -/
def pyDictGet (kvs : List (String × PyVal)) (k : String) : Option PyVal :=
  match kvs with
  | [] => Option.none
  | (k2, v) :: rest => if k2 = k then some v else pyDictGet rest k

/-- `key in dict`. -/
def pyContainsKey (kvs : List (String × PyVal)) (k : String) : Bool :=
  kvs.any (fun kv => kv.1 = k)

/-- `dict.get(key)` with the Python `None` for a missing key. -/
def pyGetD (kvs : List (String × PyVal)) (k : String) : PyVal :=
  (pyDictGet kvs k).getD PyVal.none

/-- Python dict insertion: a repeated key keeps its first position and
takes the new value (used by the JSON/literal scanners, matching
`json.loads` duplicate-key handling). -/
def pyDictInsert (kvs : List (String × PyVal)) (k : String) (v : PyVal) :
    List (String × PyVal) :=
  if kvs.any (fun kv => kv.1 = k) then
    kvs.map (fun kv => if kv.1 = k then (k, v) else kv)
  else kvs ++ [(k, v)]

/-- Python truthiness of a value (`if obj:`). -/
def pyTruthy : PyVal → Bool
  | PyVal.str s => !(s.data.isEmpty)
  | PyVal.int n => n ≠ 0
  | PyVal.bool b => b
  | PyVal.none => false
  | PyVal.list xs => !xs.isEmpty
  | PyVal.dict kvs => !kvs.isEmpty

/-- Python `a or b` on values. -/
def pyOr2 (a b : PyVal) : PyVal := if pyTruthy a then a else b

mutual
/-- Python `str(v)` / `repr(v)` (containers use `repr`; strings inside
containers are shown single-quoted; the top-level `str` of a string is
itself). -/
def pyRepr : PyVal → String
  | PyVal.str s => String.mk [apos] ++ s ++ String.mk [apos]
  | PyVal.int n => toString n
  | PyVal.bool b => if b then "True" else "False"
  | PyVal.none => "None"
  | PyVal.list xs => "[" ++ pyReprList xs ++ "]"
  | PyVal.dict kvs => String.mk [Char.ofNat 0x7b] ++ pyReprKvs kvs ++ String.mk [Char.ofNat 0x7d]

/-- comma-joined `repr` of list elements -/
def pyReprList : List PyVal → String
  | [] => ""
  | [x] => pyRepr x
  | x :: xs => pyRepr x ++ ", " ++ pyReprList xs

/-- comma-joined `repr` of dict items -/
def pyReprKvs : List (String × PyVal) → String
  | [] => ""
  | [(k, v)] => String.mk [apos] ++ k ++ String.mk [apos] ++ ": " ++ pyRepr v
  | (k, v) :: kvs =>
    String.mk [apos] ++ k ++ String.mk [apos] ++ ": " ++ pyRepr v ++ ", " ++ pyReprKvs kvs
end

/-- Python `str(v)` at top level: a string is itself, other values via
`pyRepr`. -/
def pyStr : PyVal → String
  | PyVal.str s => s
  | v => pyRepr v

/-- `_strip(x)` of the module applied to a value: `None` gives `""`,
anything else `str(x).strip()`. -/
def stripV : PyVal → String
  | PyVal.none => ""
  | v => pyStrip (pyStr v)

/-- `_strip(x)` applied to the result of a `dict.get` (missing key is
Python `None`). -/
def stripOptV (v : Option PyVal) : String :=
  match v with
  | Option.none => ""
  | some v => stripV v

/-- `_coerce_list(x)`: `None` gives `[]`, a list is itself, anything else
is a one-element list. -/
def coerceList : Option PyVal → List PyVal
  | Option.none => []
  | some PyVal.none => []
  | some (PyVal.list xs) => xs
  | some v => [v]

/-- Opening brace character. -/
def obr : Char := Char.ofNat 0x7b

/-- Closing brace character. -/
def cbr : Char := Char.ofNat 0x7d

/-- JSON whitespace skipped by `json.loads` (space, TAB, LF, CR). -/
def jsonWs (cs : List Char) : List Char :=
  cs.dropWhile (fun c =>
    c = ' ' || c = Char.ofNat 9 || c = Char.ofNat 10 || c = Char.ofNat 13)

/-- Hex digit value. -/
def hexVal (c : Char) : Option Nat :=
  if '0' ≤ c && c ≤ '9' then some (c.toNat - 48)
  else if 'a' ≤ c && c ≤ 'f' then some (c.toNat - 87)
  else if 'A' ≤ c && c ≤ 'F' then some (c.toNat - 70)
  else Option.none

/-- Body of a JSON string literal after the opening quote (strict mode:
raw control characters and unknown escapes are rejected, like
`json.loads`; surrogate pairs are not modelled). -/
def jsonStringAux : List Char → List Char → Option (String × List Char)
  | [], _ => Option.none
  | c :: rest, acc =>
    if c = '"' then some (String.mk acc.reverse, rest)
    else if c = '\\' then
      match rest with
      | [] => Option.none
      | e :: rest2 =>
        if e = '"' then jsonStringAux rest2 ('"' :: acc)
        else if e = '\\' then jsonStringAux rest2 ('\\' :: acc)
        else if e = '/' then jsonStringAux rest2 ('/' :: acc)
        else if e = 'b' then jsonStringAux rest2 (Char.ofNat 8 :: acc)
        else if e = 'f' then jsonStringAux rest2 (Char.ofNat 12 :: acc)
        else if e = 'n' then jsonStringAux rest2 (Char.ofNat 10 :: acc)
        else if e = 'r' then jsonStringAux rest2 (Char.ofNat 13 :: acc)
        else if e = 't' then jsonStringAux rest2 (Char.ofNat 9 :: acc)
        else if e = 'u' then
          match rest2 with
          | h1 :: h2 :: h3 :: h4 :: rest3 =>
            match hexVal h1, hexVal h2, hexVal h3, hexVal h4 with
            | some a, some b, some c2, some d =>
              jsonStringAux rest3 (Char.ofNat (((a * 16 + b) * 16 + c2) * 16 + d) :: acc)
            | _, _, _, _ => Option.none
          | _ => Option.none
        else Option.none
    else if c.toNat < 32 then Option.none
    else jsonStringAux rest (c :: acc)

/-- Digits to a natural number. -/
def digitsToNat (ds : List Char) : Nat :=
  ds.foldl (fun acc c => acc * 10 + (c.toNat - 48)) 0

/-- JSON integer literal.  A following `.`/`e`/`E` (a float) makes the
embedded routine fail — floats are outside the model. -/
def jsonNumber (cs : List Char) : Option (Int × List Char) :=
  let (neg, cs1) :=
    match cs with
    | c :: rest => if c = '-' then (true, rest) else (false, cs)
    | [] => (false, cs)
  let ds := cs1.takeWhile Char.isDigit
  let rest := cs1.dropWhile Char.isDigit
  if ds.isEmpty then Option.none
  else if ds.length > 1 && ds.headD ' ' = '0' then Option.none
  else
    let bad := match rest with
      | c :: _ => c = '.' || c = 'e' || c = 'E'
      | [] => false
    if bad then Option.none
    else
      let n : Int := Int.ofNat (digitsToNat ds)
      some (if neg then -n else n, rest)

mutual
/-- One JSON value (fuel-bounded recursive descent model of
`json.loads`). -/
def jsonVal : Nat → List Char → Option (PyVal × List Char)
  | 0, _ => Option.none
  | Nat.succ fuel, cs0 =>
    match jsonWs cs0 with
    | [] => Option.none
    | c :: rest =>
      if c = obr then jsonObjBody fuel (jsonWs rest) []
      else if c = '[' then jsonArrBody fuel (jsonWs rest) []
      else if c = '"' then
        match jsonStringAux rest [] with
        | some (s, rest2) => some (PyVal.str s, rest2)
        | Option.none => Option.none
      else if c = 't' then
        match matchPref "rue".data rest with
        | some rest2 => some (PyVal.bool true, rest2)
        | Option.none => Option.none
      else if c = 'f' then
        match matchPref "alse".data rest with
        | some rest2 => some (PyVal.bool false, rest2)
        | Option.none => Option.none
      else if c = 'n' then
        match matchPref "ull".data rest with
        | some rest2 => some (PyVal.none, rest2)
        | Option.none => Option.none
      else
        match jsonNumber (c :: rest) with
        | some (n, rest2) => some (PyVal.int n, rest2)
        | Option.none => Option.none

/-- JSON object members after the opening brace (whitespace already
skipped); duplicate keys follow Python dict semantics via
`pyDictInsert`. -/
def jsonObjBody : Nat → List Char → List (String × PyVal) →
    Option (PyVal × List Char)
  | 0, _, _ => Option.none
  | Nat.succ fuel, cs, acc =>
    match cs with
    | [] => Option.none
    | c :: rest =>
      if c = cbr then some (PyVal.dict acc, rest)
      else if c = '"' then
        match jsonStringAux rest [] with
        | some (k, rest2) =>
          match jsonWs rest2 with
          | ':' :: rest3 =>
            match jsonVal fuel rest3 with
            | some (v, rest4) =>
              let acc2 := pyDictInsert acc k v
              match jsonWs rest4 with
              | ',' :: rest5 =>
                let cs5 := jsonWs rest5
                if cs5.headD ' ' = cbr then Option.none
                else jsonObjBody fuel cs5 acc2
              | c2 :: rest5 =>
                if c2 = cbr then some (PyVal.dict acc2, rest5) else Option.none
              | [] => Option.none
            | Option.none => Option.none
          | _ => Option.none
        | Option.none => Option.none
      else Option.none

/-- JSON array elements after the opening bracket (whitespace already
skipped). -/
def jsonArrBody : Nat → List Char → List PyVal → Option (PyVal × List Char)
  | 0, _, _ => Option.none
  | Nat.succ fuel, cs, acc =>
    match cs with
    | [] => Option.none
    | c :: rest =>
      if c = ']' then some (PyVal.list acc.reverse, rest)
      else
        match jsonVal fuel (c :: rest) with
        | some (v, rest2) =>
          match jsonWs rest2 with
          | ',' :: rest3 =>
            let cs3 := jsonWs rest3
            if cs3.headD ' ' = ']' then Option.none
            else jsonArrBody fuel cs3 (v :: acc)
          | c2 :: rest3 =>
            if c2 = ']' then some (PyVal.list (v :: acc).reverse, rest3)
            else Option.none
          | [] => Option.none
        | Option.none => Option.none
end

/-- `json.loads` model (`_safe_json_loads` returns the value or fails). -/
def jsonLoads (s : String) : Option PyVal :=
  match jsonVal (2 * s.data.length + 4) s.data with
  | some (v, rest) => if (jsonWs rest).isEmpty then some v else Option.none
  | Option.none => Option.none

/-- Body of a Python string literal (for the `ast.literal_eval` model);
`q` is the closing quote; unknown escapes keep the backslash, as in
Python. -/
def litStringAux (q : Char) : List Char → List Char → Option (List Char)
  | [], _ => Option.none
  | c :: rest, acc =>
    if c = q then some rest
    else if c = '\\' then
      match rest with
      | [] => Option.none
      | e :: rest2 =>
        if e = 'n' || e = 't' || e = 'r' || e = '\\' || e = apos || e = '"' then
          litStringAux q rest2 (e :: acc)
        else litStringAux q rest2 (e :: '\\' :: acc)
    else if c = Char.ofNat 10 then Option.none
    else litStringAux q rest (c :: acc)

mutual
/-- One Python literal (fuel-bounded model of the `ast.literal_eval`
check in `_looks_like_json_dict`; only the success/shape matters, so the
result is whether the parsed value is a dict; floats are outside the
model). -/
def litVal : Nat → List Char → Option (Bool × List Char)
  | 0, _ => Option.none
  | Nat.succ fuel, cs0 =>
    match jsonWs cs0 with
    | [] => Option.none
    | c :: rest =>
      if c = obr then
        match jsonWs rest with
        | c2 :: rest2 =>
          if c2 = cbr then some (true, rest2)
          else
            match litDictBody fuel (c2 :: rest2) with
            | some rest3 => some (true, rest3)
            | Option.none => Option.none
        | [] => Option.none
      else if c = '[' then
        match jsonWs rest with
        | c2 :: rest2 =>
          if c2 = ']' then some (false, rest2)
          else
            match litSeqBody ']' fuel (c2 :: rest2) with
            | some rest3 => some (false, rest3)
            | Option.none => Option.none
        | [] => Option.none
      else if c = '(' then
        match jsonWs rest with
        | c2 :: rest2 =>
          if c2 = ')' then some (false, rest2)
          else
            match litSeqBody ')' fuel (c2 :: rest2) with
            | some rest3 => some (false, rest3)
            | Option.none => Option.none
        | [] => Option.none
      else if c = '"' || c = apos then
        match litStringAux c rest [] with
        | some rest2 => some (false, rest2)
        | Option.none => Option.none
      else if c = 'T' then
        match matchPref "rue".data rest with
        | some rest2 => some (false, rest2)
        | Option.none => Option.none
      else if c = 'F' then
        match matchPref "alse".data rest with
        | some rest2 => some (false, rest2)
        | Option.none => Option.none
      else if c = 'N' then
        match matchPref "one".data rest with
        | some rest2 => some (false, rest2)
        | Option.none => Option.none
      else
        let cs1 := if c = '-' then rest else c :: rest
        let ds := cs1.takeWhile Char.isDigit
        let rest2 := cs1.dropWhile Char.isDigit
        if ds.isEmpty then Option.none
        else
          let bad := match rest2 with
            | c2 :: _ => c2 = '.' || c2 = 'e' || c2 = 'E' || c2 = 'j'
            | [] => false
          if bad then Option.none else some (false, rest2)

/-- Python dict-literal members (`key : value` pairs, trailing comma
allowed); returns the rest after the closing brace. -/
def litDictBody : Nat → List Char → Option (List Char)
  | 0, _ => Option.none
  | Nat.succ fuel, cs =>
    match litVal fuel cs with
    | some (_, rest) =>
      match jsonWs rest with
      | ':' :: rest2 =>
        match litVal fuel rest2 with
        | some (_, rest3) =>
          match jsonWs rest3 with
          | ',' :: rest4 =>
            match jsonWs rest4 with
            | c :: rest5 => if c = cbr then some rest5 else litDictBody fuel (c :: rest5)
            | [] => Option.none
          | c :: rest4 => if c = cbr then some rest4 else Option.none
          | [] => Option.none
        | Option.none => Option.none
      | _ => Option.none
    | Option.none => Option.none

/-- Python list/tuple-literal elements; `close` is the closing bracket;
returns the rest after it. -/
def litSeqBody (close : Char) : Nat → List Char → Option (List Char)
  | 0, _ => Option.none
  | Nat.succ fuel, cs =>
    match litVal fuel cs with
    | some (_, rest) =>
      match jsonWs rest with
      | ',' :: rest2 =>
        match jsonWs rest2 with
        | c :: rest3 => if c = close then some rest3 else litSeqBody close fuel (c :: rest3)
        | [] => Option.none
      | c :: rest2 => if c = close then some rest2 else Option.none
      | [] => Option.none
    | Option.none => Option.none
end

/-- `_looks_like_json_dict(s)`: the stripped string is brace-delimited
and `ast.literal_eval` yields a dict. -/
def looksLikeJsonDict (s : String) : Bool :=
  let t := pyStrip s
  match t.data with
  | [] => false
  | c :: rest =>
    c = obr && t.data.getLast? = some cbr &&
    (match litVal (2 * t.data.length + 4) (c :: rest) with
     | some (isDict, rest2) => (jsonWs rest2).isEmpty && isDict
     | Option.none => false)

/-- `_brace_scan_json` inner loop: `depth` is the running brace depth
(an integer — it may go negative), `acc` the reversed characters of the
current candidate block when a block is open. -/
def braceScanAux : List Char → Int → Option (List Char) → List PyVal
  | [], _, _ => []
  | c :: rest, depth, acc =>
    if c = obr then
      let acc2 := if depth = 0 then some [c] else acc.map (fun l => c :: l)
      braceScanAux rest (depth + 1) acc2
    else if c = cbr then
      let depth2 := depth - 1
      match acc with
      | some l =>
        if depth2 = 0 then
          match jsonLoads (String.mk (c :: l).reverse) with
          | some v => v :: braceScanAux rest depth2 Option.none
          | Option.none => braceScanAux rest depth2 Option.none
        else braceScanAux rest depth2 (some (c :: l))
      | Option.none => braceScanAux rest depth2 Option.none
    else braceScanAux rest depth (acc.map (fun l => c :: l))

/-- `_brace_scan_json(text)`. -/
def braceScanJson (s : String) : List PyVal := braceScanAux s.data 0 Option.none

/-- Leftmost occurrence of `pat`: the characters before it and the rest
after it. -/
def findSub (pat : List Char) : List Char → Option (List Char × List Char)
  | [] => if pat.isEmpty then some ([], []) else Option.none
  | c :: cs =>
    match matchPref pat (c :: cs) with
    | some rest => some ([], rest)
    | Option.none =>
      match findSub pat cs with
      | some (pre, post) => some (c :: pre, post)
      | Option.none => Option.none

/-- `FENCE.findall` loop: each match of
```` ```(?:json)?\s*(.*?)\s*``` ```` (DOTALL, IGNORECASE) captures the
text between the delimiters with surrounding whitespace stripped (the
lazy group ends at the earliest closing delimiter). -/
def fenceAux : Nat → List Char → List String
  | 0, _ => []
  | Nat.succ fuel, cs =>
    match findSub "```".data cs with
    | Option.none => []
    | some (_, afterOpen) =>
      let afterLang :=
        match matchCI "json".data afterOpen with
        | some r => r
        | Option.none => afterOpen
      match findSub "```".data afterLang with
      | Option.none => []
      | some (interior, rest) => pyStrip (String.mk interior) :: fenceAux fuel rest

/-- All fenced-block captures of `FENCE.findall(s)`. -/
def fenceBlocks (s : String) : List String := fenceAux (s.data.length + 1) s.data

/-- A character allowed in the body of `URL_PATTERN`
(`[^\s)]`). -/
def urlBodyChar (c : Char) : Bool := !(isPySpace c) && c ≠ ')'

/-- Match `https?://[^\s)]+` at the head of the input. -/
def urlAt (cs : List Char) : Option (String × List Char) :=
  match matchPref "https://".data cs with
  | some rest =>
    let body := rest.takeWhile urlBodyChar
    if body.isEmpty then Option.none
    else some ("https://" ++ String.mk body, rest.dropWhile urlBodyChar)
  | Option.none =>
    match matchPref "http://".data cs with
    | some rest =>
      let body := rest.takeWhile urlBodyChar
      if body.isEmpty then Option.none
      else some ("http://" ++ String.mk body, rest.dropWhile urlBodyChar)
    | Option.none => Option.none

/-- `URL_PATTERN.findall` (leftmost, non-overlapping). -/
def findUrlsAux : Nat → List Char → List String
  | 0, _ => []
  | Nat.succ fuel, cs =>
    match cs with
    | [] => []
    | _ :: rest =>
      match urlAt cs with
      | some (u, after) => u :: findUrlsAux fuel after
      | Option.none => findUrlsAux fuel rest

/-- `_find_urls(s)`. -/
def findUrls (s : String) : List String := findUrlsAux (s.data.length + 1) s.data

/-- Shared shape of `_dedupe_list_keep_order` / `_dedupe_dict_rows`:
skip items satisfying `skip`, keep the first item for each key. -/
def dedupeByAux {α κ : Type} [DecidableEq κ] (skip : α → Bool) (key : α → κ) :
    List α → List κ → List α
  | [], _ => []
  | x :: xs, seen =>
    if skip x then dedupeByAux skip key xs seen
    else if key x ∈ seen then dedupeByAux skip key xs seen
    else x :: dedupeByAux skip key xs (key x :: seen)

/-- `_dedupe_list_keep_order(items)`: falsy (empty) strings are skipped,
the key is the stripped string, first occurrence wins. -/
def dedupeListKeepOrder (items : List String) : List String :=
  dedupeByAux (fun it => it = "") (fun it => pyStrip it) items []

/-- Row of the `competitors` accumulator field (`{name, position, notes}`,
all appended values are `_strip`-ped strings). -/
structure CompRow where
  name : String
  position : String
  notes : String
deriving DecidableEq

/-- Row of the `numbers` accumulator field (`{metric, value, source}`). -/
structure NumRow where
  metric : String
  value : String
  source : String
deriving DecidableEq

/-- Row of the `recommendations` accumulator field; `priority` is stored
raw (`r.get("priority")` can be any value, `None` included). -/
structure RecRow where
  priority : PyVal
  action : String
  rationale : String
deriving DecidableEq

/-- The merge accumulator built by `_extract_all_json_blocks`
(`merged = {k: ([] if k != "summary" else "") for k in SECTION_KEYS}`);
every code path stores strings into the five simple list fields and
typed rows into the three structured ones, so the dict is modelled as
this structure.  Field order follows `SECTION_KEYS`. -/
structure Merged where
  summary : String
  trends : List String
  insights : List String
  opportunities : List String
  risks : List String
  competitors : List CompRow
  numbers : List NumRow
  recommendations : List RecRow
  sources : List String
deriving DecidableEq

/-- The all-empty accumulator. -/
def emptyMerged : Merged := ⟨"", [], [], [], [], [], [], [], []⟩

/-- Summary replacement rule (`_merge_json_into` lines 412–415 and the
analogous comparisons elsewhere): a candidate replaces the stored
summary only when strictly longer. -/
def updateSummary (cur cand : String) : String :=
  if cand.length > cur.length then cand else cur

/-- Display line `title — why (evidence: ev)` built for trend objects
(`f"{title} — {why}".strip(" —")`, evidence appended when non-empty);
the dash is EM DASH. -/
def trendLine (title why ev : String) : String :=
  let line := pyStripSet [' ', emDash] (title ++ " " ++ emDashS ++ " " ++ why)
  if ev = "" then line else line ++ " (evidence: " ++ ev ++ ")"

/-- Trend-object fields as read by both `_merge_research_block` and
`_merge_json_into` (identical `or`-chains in the source). -/
def trendObjLine (t : List (String × PyVal)) : String :=
  let title := stripV (pyOr2 (pyGetD t "title") (pyGetD t "name"))
  let why :=
    stripV (pyOr2 (pyGetD t "why_it_matters") (pyOr2 (pyGetD t "detail") (pyGetD t "summary")))
  let ev := stripV (pyGetD t "evidence")
  trendLine title why ev

/-- Contribution of the `trends` key in `_merge_json_into`: a single
dict is wrapped into a list; dict entries become display lines (dropped
when empty), string entries are kept (stripped) unless they look like a
dict literal; other entries are ignored. -/
def trendsContrib (tr : Option PyVal) : List String :=
  let trl : List PyVal :=
    match tr with
    | some (PyVal.dict t) => [PyVal.dict t]
    | some (PyVal.list xs) => xs
    | _ => []
  trl.flatMap (fun t =>
    match t with
    | PyVal.dict tk =>
      let line := trendObjLine tk
      if line = "" then [] else [line]
    | PyVal.str s => if looksLikeJsonDict s then [] else [pyStrip s]
    | _ => [])

/-- Contribution of the `trends` key in `_merge_research_block`: only a
list is accepted and only dict entries are used. -/
def researchTrendsContrib (tr : Option PyVal) : List String :=
  match tr with
  | some (PyVal.list xs) =>
    xs.flatMap (fun t =>
      match t with
      | PyVal.dict tk =>
        let line := trendObjLine tk
        if line = "" then [] else [line]
      | _ => [])
  | _ => []

/-- Simple text-section contribution
(`for item in _coerce_list(v): s = _strip(item); if s: append(s)`). -/
def simpleContrib (v : Option PyVal) : List String :=
  (coerceList v).flatMap (fun item =>
    let s := stripV item
    if s = "" then [] else [s])

/-- `key_points`/`keypoints`/`highlights` contribution (fed to both
`insights` and `trends`). -/
def keyPointsContrib (kvs : List (String × PyVal)) : List String :=
  ["key_points", "keypoints", "highlights"].flatMap fun k =>
    simpleContrib (pyDictGet kvs k)

/-- `competitors` rows taken by `_merge_json_into` (only dict entries). -/
def compContrib (v : Option PyVal) : List CompRow :=
  (coerceList v).flatMap (fun comp =>
    match comp with
    | PyVal.dict ck =>
      [⟨stripV (pyGetD ck "name"), stripV (pyGetD ck "position"), stripV (pyGetD ck "notes")⟩]
    | _ => [])

/-- `numbers` rows taken by `_merge_json_into` (only dict entries). -/
def numContrib (v : Option PyVal) : List NumRow :=
  (coerceList v).flatMap (fun n =>
    match n with
    | PyVal.dict nk =>
      [⟨stripV (pyGetD nk "metric"), stripV (pyGetD nk "value"), stripV (pyGetD nk "source")⟩]
    | _ => [])

/-- `recommendations` rows taken by `_merge_json_into` (only dict
entries; `priority` kept raw). -/
def recContrib (v : Option PyVal) : List RecRow :=
  (coerceList v).flatMap (fun r =>
    match r with
    | PyVal.dict rk =>
      [⟨pyGetD rk "priority", stripV (pyGetD rk "action"), stripV (pyGetD rk "rationale")⟩]
    | _ => [])

/-- `numbers`/`metrics` rows of `_merge_research_block`. -/
def researchNumContrib (research : List (String × PyVal)) : List NumRow :=
  match pyOr2 (pyGetD research "numbers") (pyGetD research "metrics") with
  | PyVal.list xs =>
    xs.flatMap (fun n =>
      match n with
      | PyVal.dict nk =>
        [⟨stripV (pyOr2 (pyGetD nk "metric") (pyGetD nk "name")),
          stripV (pyOr2 (pyGetD nk "value") (pyGetD nk "val")),
          stripV (pyOr2 (pyGetD nk "source") (pyGetD nk "url"))⟩]
      | _ => [])
  | _ => []

/-- `competitors`/`actors` rows of `_merge_research_block`. -/
def researchCompContrib (research : List (String × PyVal)) : List CompRow :=
  match pyOr2 (pyGetD research "competitors") (pyGetD research "actors") with
  | PyVal.list xs =>
    xs.flatMap (fun c =>
      match c with
      | PyVal.dict ck =>
        [⟨stripV (pyGetD ck "name"),
          stripV (pyOr2 (pyGetD ck "position") (pyOr2 (pyGetD ck "role") (PyVal.str ""))),
          stripV (pyOr2 (pyGetD ck "notes") (pyOr2 (pyGetD ck "summary") (PyVal.str "")))⟩]
      | _ => [])
  | _ => []

/-- `recommendations` rows of `_merge_research_block`. -/
def researchRecContrib (research : List (String × PyVal)) : List RecRow :=
  match pyDictGet research "recommendations" with
  | some (PyVal.list xs) =>
    xs.flatMap (fun r =>
      match r with
      | PyVal.dict rk =>
        [⟨pyGetD rk "priority",
          stripV (pyOr2 (pyGetD rk "action") (pyGetD rk "what")),
          stripV (pyOr2 (pyGetD rk "rationale") (pyGetD rk "why"))⟩]
      | _ => [])
  | _ => []

/-- `_merge_research_block(merged, research)`. -/
def mergeResearchBlock (m : Merged) (research : List (String × PyVal)) : Merged :=
  let m := { m with trends := m.trends ++ researchTrendsContrib (pyDictGet research "trends") }
  let m := { m with numbers := m.numbers ++ researchNumContrib research }
  let m := { m with competitors := m.competitors ++ researchCompContrib research }
  let m := { m with insights := m.insights ++ simpleContrib (pyDictGet research "insights") }
  let m := { m with opportunities := m.opportunities ++ simpleContrib (pyDictGet research "opportunities") }
  let m := { m with risks := m.risks ++ simpleContrib (pyDictGet research "risks") }
  let m := { m with sources := m.sources ++ simpleContrib (pyDictGet research "sources") }
  { m with recommendations := m.recommendations ++ researchRecContrib research }

/-- `_merge_json_into(merged, obj)`: non-dict values contribute nothing;
a dict is merged field by field (research block first, then summary,
trends, the simple text sections, key-point synonyms, and the three
structured row sections). -/
def mergeJsonInto (m : Merged) (obj : PyVal) : Merged :=
  match obj with
  | PyVal.dict kvs =>
    let m :=
      match pyDictGet kvs "research" with
      | some (PyVal.dict rk) => mergeResearchBlock m rk
      | _ => m
    let m :=
      if pyContainsKey kvs "summary" then
        { m with summary := updateSummary m.summary (stripOptV (pyDictGet kvs "summary")) }
      else m
    let m := { m with trends := m.trends ++ trendsContrib (pyDictGet kvs "trends") }
    let m := { m with insights := m.insights ++ simpleContrib (pyDictGet kvs "insights") }
    let m := { m with opportunities := m.opportunities ++ simpleContrib (pyDictGet kvs "opportunities") }
    let m := { m with risks := m.risks ++ simpleContrib (pyDictGet kvs "risks") }
    let m := { m with sources := m.sources ++ simpleContrib (pyDictGet kvs "sources") }
    let kp := keyPointsContrib kvs
    let m := { m with insights := m.insights ++ kp, trends := m.trends ++ kp }
    let m := { m with competitors := m.competitors ++ compContrib (pyDictGet kvs "competitors") }
    let m := { m with numbers := m.numbers ++ numContrib (pyDictGet kvs "numbers") }
    { m with recommendations := m.recommendations ++ recContrib (pyDictGet kvs "recommendations") }
  | _ => m

/-- `SECTION_MAP_NO` of the module. -/
def sectionMapNo : List (String × String) :=
  [("sammendrag", "summary"), ("trender", "trends"), ("nøkkelpunkter", "trends"),
   ("hovedfunn", "insights"), ("innsikt", "insights"), ("muligheter", "opportunities"),
   ("risiko", "risks"), ("aktører / konkurrenter", "competitors"),
   ("aktorer / konkurrenter", "competitors"), ("nøkkeltall", "numbers"),
   ("nokkelstall", "numbers"), ("anbefalinger", "recommendations"), ("kilder", "sources")]

/-- `SECTION_MAP_EN` of the module. -/
def sectionMapEn : List (String × String) :=
  [("executive summary", "summary"), ("key trends", "trends"), ("key points", "trends"),
   ("highlights", "trends"), ("findings", "insights"), ("market insights", "insights"),
   ("opportunities", "opportunities"), ("risks", "risks"), ("competitors", "competitors"),
   ("competitors / actors", "competitors"), ("key numbers", "numbers"),
   ("recommendations", "recommendations"), ("sources", "sources")]

/-- `SECTION_KEYS` of the module. -/
def sectionKeys : List String :=
  ["summary", "trends", "insights", "opportunities", "risks", "competitors",
   "numbers", "recommendations", "sources"]

/-- `norm_header(h)`: strip, lower-case, strip trailing colons, then look
up the Norwegian map before the English one. -/
def normHeader (h : String) : Option String :=
  let x := pyRStripSet [':'] (pyLower (pyStrip h))
  match sectionMapNo.lookup x with
  | some k => some k
  | Option.none => sectionMapEn.lookup x

/-- `_drop_bullet(s)`: remove the anchored `^\s*[-*•]\s+` prefix (bullet
marker with at least one following whitespace) if present, then strip. -/
def dropBullet (s : String) : String :=
  let cs := s.data
  let after := cs.dropWhile isPySpace
  let remaining :=
    match after with
    | c :: rest =>
      if c = '-' || c = '*' || c = Char.ofNat 0x2022 then
        match rest with
        | c2 :: _ => if isPySpace c2 then rest.dropWhile isPySpace else cs
        | [] => cs
      else cs
    | [] => cs
  pyStrip (String.mk remaining)

/-- One split of `re.split(r"\s*SEP\s*", ...)`: the leftmost match
starts at the whitespace run preceding the first separator character and
greedily eats the whitespace after it; `pre` holds the reversed prefix
scanned so far. -/
def splitSepOnce (sepSet : Char → Bool) : List Char → List Char →
    Option (List Char × List Char)
  | _, [] => Option.none
  | pre, c :: rest =>
    if sepSet c then some ((pre.dropWhile isPySpace).reverse, rest.dropWhile isPySpace)
    else splitSepOnce sepSet (c :: pre) rest

/-- `re.split` with a separator class and a maximum number of splits. -/
def pySplitSepMax (sepSet : Char → Bool) : Nat → List Char → List (List Char)
  | 0, cs => [cs]
  | Nat.succ n, cs =>
    match splitSepOnce sepSet [] cs with
    | Option.none => [cs]
    | some (pre, post) => pre :: pySplitSepMax sepSet n post

/-- The separator class `[-–:;]` of `_split3` (hyphen, EN DASH, colon,
semicolon). -/
def split3SepChar (c : Char) : Bool := c = '-' || c = enDash || c = ':' || c = ';'

/-- `_split3(s)`: split at the first two occurrences of `\s*[-–:;]\s*`
(whitespace optional), strip each part, pad with empty strings. -/
def split3 (s : String) : String × String × String :=
  let parts := (pySplitSepMax split3SepChar 2 s.data).map (fun cs => pyStrip (String.mk cs))
  let parts := parts ++ ["", "", ""]
  (pyStrip (parts.headD ""), pyStrip ((parts.drop 1).headD ""), pyStrip ((parts.drop 2).headD ""))

/-- The separator class `[–-]` of `_split_recommendation` (EN DASH,
hyphen). -/
def recSepChar (c : Char) : Bool := c = '-' || c = enDash

/-- Tail test for the optional group `(?:\s*[–-]\s*(.+))?` at a lazy
split point: whitespace, a dash, and at least one remaining character;
the group is the remainder after the greedy `\s*` (when the remainder is
all whitespace, backtracking leaves its last character in the group —
it is `_strip`-ped away downstream either way). -/
def recSepTail (cs : List Char) : Option (List Char) :=
  match cs.dropWhile isPySpace with
  | c :: t =>
    if recSepChar c then
      if t.isEmpty then Option.none
      else
        match t.dropWhile isPySpace with
        | [] => some [t.getLastD ' ']
        | g => some g
    else Option.none
  | [] => Option.none

/-- Lazy search of `(.+?)` for the earliest split point; `actRev` holds
the reversed action characters consumed so far (at least one). -/
def flsGo : List Char → List Char → Option (List Char × List Char)
  | actRev, [] =>
    match recSepTail [] with
    | some why => some (actRev.reverse, why)
    | Option.none => Option.none
  | actRev, c :: rest =>
    match recSepTail (c :: rest) with
    | some why => some (actRev.reverse, why)
    | Option.none => flsGo (c :: actRev) rest

/-- `re.match(r"^\[?\s*prioritet\s*(\d+)\s*\]?\s*(.+?)(?:\s*[–-]\s*(.+))?$", it, re.I)`
of `_split_recommendation` — note the keyword is the Norwegian
`prioritet` (digits are modelled as ASCII, like the other character
classes here; the lines reaching this matcher come from `splitlines`
and carry no embedded newline).

The tail `(.+?)(?:\s*[–-]\s*(.+))?$` matches any non-empty remainder
(the lazy group can always extend to the end with the optional group
absent), so the greedy prefix needs no backtracking while the remainder
is non-empty.  When the prefix consumes the whole line, the engine
backtracks minimally to free one character for the mandatory `(.+?)`,
trying the components right to left: the `\s*` after `\]?` (freeing a
whitespace character, which `_strip`s to an empty action), then `\]?`
(freeing `]` as the action), then the `\s*` after the digits (again a
whitespace character: the following `\]?` cannot consume it and the
last `\s*` gives it back), and finally the last digit of `(\d+)`
(which must keep at least one digit) — that digit becomes the action
and the remaining digits the priority.  If nothing can be freed, the
match fails. -/
def matchPrioritet (s : String) : Option (Nat × String × String) :=
  let cs := s.data
  let cs :=
    match cs with
    | c :: rest => if c = '[' then rest else cs
    | [] => cs
  let cs := cs.dropWhile isPySpace
  match matchCI "prioritet".data cs with
  | Option.none => Option.none
  | some cs2 =>
    let cs3 := cs2.dropWhile isPySpace
    let ds := cs3.takeWhile Char.isDigit
    if ds.isEmpty then Option.none
    else
      let afterDs := cs3.dropWhile Char.isDigit
      let wsC := afterDs.takeWhile isPySpace
      let cs4 := afterDs.dropWhile isPySpace
      let brk : Bool :=
        match cs4 with
        | c :: _ => c = ']'
        | [] => false
      let cs5 :=
        match cs4 with
        | c :: rest => if c = ']' then rest else cs4
        | [] => cs4
      let wsD := cs5.takeWhile isPySpace
      let cs6 := cs5.dropWhile isPySpace
      match cs6 with
      | c :: rest =>
        match flsGo [c] rest with
        | some (act, why) =>
          some (digitsToNat ds, pyStrip (String.mk act), pyStrip (String.mk why))
        | Option.none => some (digitsToNat ds, pyStrip (String.mk cs6), "")
      | [] =>
        if !wsD.isEmpty then some (digitsToNat ds, "", "")
        else if brk then some (digitsToNat ds, "]", "")
        else if !wsC.isEmpty then some (digitsToNat ds, "", "")
        else if ds.length ≥ 2 then
          some (digitsToNat ds.dropLast, String.mk [ds.getLastD '0'], "")
        else Option.none

/-- `_split_recommendation(items)` per line (the source returns three
parallel lists that are zipped back downstream; the per-line triple is
the same data): the prioritet pattern, else a split at the first
`\s*[–-]\s*`. -/
def splitRecommendation (items : List String) : List (Option Nat × String × String) :=
  items.map fun it =>
    match matchPrioritet it with
    | some (n, a, w) => (some n, a, w)
    | Option.none =>
      let segs := pySplitSepMax recSepChar 1 it.data
      (Option.none, pyStrip (String.mk (segs.headD [])),
        pyStrip (String.mk ((segs.drop 1).headD [])))

/-- `filtered_cleaned(buf)` of `_extract_from_markdown`: drop bullet
markers, dict-literal-looking lines and empties. -/
def filteredCleaned (buf : List String) : List String :=
  ((buf.map dropBullet).filter fun x => !(looksLikeJsonDict x)).filter fun x => x ≠ ""

/-- `" ".join(parts)`. -/
def joinSpace : List String → String
  | [] => ""
  | [s] => s
  | s :: rest => s ++ " " ++ joinSpace rest

/-- Recommendation rows produced on flush: `enumerate(zip(...), 1)` with
`priority = p or i` (a missing or zero priority falls back to the
1-based position within this flush). -/
def recRowsOfFlush (cleaned : List String) : List RecRow :=
  (splitRecommendation cleaned).enum.map fun pr =>
    let i := pr.1 + 1
    let pv : PyVal :=
      match pr.2.1 with
      | some n => if n = 0 then PyVal.int (Int.ofNat i) else PyVal.int (Int.ofNat n)
      | Option.none => PyVal.int (Int.ofNat i)
    ⟨pv, pr.2.2.1, pr.2.2.2⟩

/-- `flush()` of `_extract_from_markdown`. -/
def mdFlush (current : Option String) (buf : List String) (m : Merged) : Merged :=
  match current with
  | Option.none => m
  | some key =>
    if buf.isEmpty then m
    else
      let cleaned := filteredCleaned buf
      if key = "trends" then { m with trends := m.trends ++ cleaned }
      else if key = "insights" then { m with insights := m.insights ++ cleaned }
      else if key = "opportunities" then { m with opportunities := m.opportunities ++ cleaned }
      else if key = "risks" then { m with risks := m.risks ++ cleaned }
      else if key = "sources" then { m with sources := m.sources ++ cleaned }
      else if key = "competitors" then
        { m with competitors := m.competitors ++ cleaned.map fun x =>
            let p := split3 x
            ⟨p.1, p.2.1, p.2.2⟩ }
      else if key = "numbers" then
        { m with numbers := m.numbers ++ cleaned.map fun x =>
            let p := split3 x
            ⟨p.1, p.2.1, p.2.2⟩ }
      else if key = "recommendations" then
        { m with recommendations := m.recommendations ++ recRowsOfFlush cleaned }
      else if key = "summary" then
        let text := pyStrip (joinSpace cleaned)
        if text.length > m.summary.length then { m with summary := text } else m
      else m

/-- Line loop of `_extract_from_markdown`: a `#` heading or a bare
alias line switches the section (flushing the buffer), other non-empty
lines accumulate when a section is active. -/
def mdLoop : List String → Option String → List String → Merged → Merged
  | [], current, buf, m => mdFlush current buf m
  | raw :: rest, current, buf, m =>
    let ln := pyStrip raw
    if ln = "" then mdLoop rest current buf m
    else
      let hashCanon : Option String :=
        match ln.data with
        | c :: _ =>
          if c = '#' then normHeader (pyStrip (pyLStripSet ['#', ' '] ln)) else Option.none
        | [] => Option.none
      match hashCanon with
      | some canon => mdLoop rest (some canon) [] (mdFlush current buf m)
      | Option.none =>
        match normHeader (pyRStripSet [':'] (pyLower ln)) with
        | some canon => mdLoop rest (some canon) [] (mdFlush current buf m)
        | Option.none =>
          if current.isSome then mdLoop rest current (buf ++ [ln]) m
          else mdLoop rest current buf m

/-- `_extract_from_markdown(merged, s)`. -/
def extractFromMarkdown (m : Merged) (s : String) : Merged :=
  let lines := (pySplitLines s).map pyRStrip
  if lines.isEmpty then m else mdLoop lines Option.none [] m

/-- Match of `name\s*=\s*Q(.+?)Q` (DOTALL, IGNORECASE) anchored at the
head of `cs`; the lazy group takes at least one character and ends at
the earliest closing quote; the capture is returned `.strip()`-ped as in
`_find_value`. -/
def kvQuotedAt (name : List Char) (q : Char) (cs : List Char) : Option String :=
  match matchCI name cs with
  | Option.none => Option.none
  | some cs2 =>
    match cs2.dropWhile isPySpace with
    | c :: cs3 =>
      if c = '=' then
        match cs3.dropWhile isPySpace with
        | c2 :: cs4 =>
          if c2 = q then
            match cs4 with
            | [] => Option.none
            | c3 :: cs5 =>
              match findSub [q] cs5 with
              | some (pre, _) => some (pyStrip (String.mk (c3 :: pre)))
              | Option.none => Option.none
          else Option.none
        | [] => Option.none
      else Option.none
    | [] => Option.none

/-- `re.search` loop for `kvQuotedAt` (leftmost match). -/
def kvFindQ (name : List Char) (q : Char) : Nat → List Char → Option String
  | 0, _ => Option.none
  | Nat.succ fuel, cs =>
    match cs with
    | [] => Option.none
    | _ :: rest =>
      match kvQuotedAt name q cs with
      | some v => some v
      | Option.none => kvFindQ name q fuel rest

/-- Match of `name\s*=\s*\[(.+?)\]` anchored at the head of `cs`,
returning the raw bracket body. -/
def kvListAt (name : List Char) (cs : List Char) : Option (List Char) :=
  match matchCI name cs with
  | Option.none => Option.none
  | some cs2 =>
    match cs2.dropWhile isPySpace with
    | c :: cs3 =>
      if c = '=' then
        match cs3.dropWhile isPySpace with
        | c2 :: cs4 =>
          if c2 = '[' then
            match cs4 with
            | [] => Option.none
            | c3 :: cs5 =>
              match findSub [']'] cs5 with
              | some (pre, _) => some (c3 :: pre)
              | Option.none => Option.none
          else Option.none
        | [] => Option.none
      else Option.none
    | [] => Option.none

/-- `re.search` loop for `kvListAt` (leftmost match). -/
def kvFindL (name : List Char) : Nat → List Char → Option (List Char)
  | 0, _ => Option.none
  | Nat.succ fuel, cs =>
    match cs with
    | [] => Option.none
    | _ :: rest =>
      match kvListAt name cs with
      | some v => some v
      | Option.none => kvFindL name fuel rest

/-- Split on commas (Python `body.split(",")`). -/
def splitComma : List Char → List (List Char)
  | [] => [[]]
  | c :: rest =>
    if c = ',' then [] :: splitComma rest
    else
      match splitComma rest with
      | l :: ls => (c :: l) :: ls
      | [] => [[c]]

/-- `_find_list` body handling: split on commas, strip, unquote parts
quoted on both ends, drop empties. -/
def kvCleanParts (body : List Char) : List String :=
  ((splitComma body).map fun p => pyStrip (String.mk p)).flatMap fun p =>
    let unq :=
      match p.data with
      | c :: _ =>
        if (c = '"' && p.data.getLast? = some '"') ||
            (c = apos && p.data.getLast? = some apos) then
          pyStrip (String.mk ((p.data.drop 1).dropLast))
        else p
      | [] => p
    if unq = "" then [] else [unq]

/-- Result of `_parse_summary_kv_block`. -/
structure KvBlock where
  summary : Option String
  keyPoints : List String
  recs : List String
  sources : List String

/-- `_parse_summary_kv_block(s)`: quick substring guard, then regex
hunts for `summary="…"` (double then single quotes) and the three
bracket lists; `None` when everything is empty. -/
def parseSummaryKvBlock (s : String) : Option KvBlock :=
  let text := pyStrip s
  let text :=
    if (matchPref "- ".data text.data).isSome then pyLStrip (String.mk (text.data.drop 2))
    else text
  if !(pyContains text "summary=" || pyContains text "key_points" ||
      pyContains text "recommendations") then
    Option.none
  else
    let fuel := text.data.length + 1
    let summary :=
      match kvFindQ "summary".data '"' fuel text.data with
      | some v => some v
      | Option.none => kvFindQ "summary".data apos fuel text.data
    let findList := fun (name : String) =>
      match kvFindL name.data fuel text.data with
      | some body => kvCleanParts body
      | Option.none => []
    let keyPoints := findList "key_points"
    let recs := findList "recommendations"
    let srcs := findList "sources"
    let sTruthy :=
      match summary with
      | some v => v ≠ ""
      | Option.none => false
    if sTruthy || !keyPoints.isEmpty || !recs.isEmpty || !srcs.isEmpty then
      some ⟨summary, keyPoints, recs, srcs⟩
    else Option.none

mutual
/-- `walk` of `_collect_strings_deep`: depth-first, strings are stripped
and kept when non-empty, dict values and list elements recursed, other
leaves ignored. -/
def collectWalk : PyVal → List String
  | PyVal.str s => if pyStrip s = "" then [] else [pyStrip s]
  | PyVal.dict kvs => collectWalkKvs kvs
  | PyVal.list xs => collectWalkList xs
  | _ => []

/-- `walk` over list elements. -/
def collectWalkList : List PyVal → List String
  | [] => []
  | x :: xs => collectWalk x ++ collectWalkList xs

/-- `walk` over dict values. -/
def collectWalkKvs : List (String × PyVal) → List String
  | [] => []
  | (_, v) :: kvs => collectWalk v ++ collectWalkKvs kvs
end

/-- Dedup-with-budget loop of `_collect_strings_deep`: the element that
crosses the 20000-character budget is still kept, everything after it is
dropped. -/
def budgetDedupAux : List String → List String → Nat → List String
  | [], _, _ => []
  | s :: rest, seen, total =>
    if seen.contains s then budgetDedupAux rest seen total
    else
      let total2 := total + s.length
      s :: (if total2 > 20000 then [] else budgetDedupAux rest (s :: seen) total2)

/-- `_collect_strings_deep(obj)` (the module repeats this local helper
verbatim at three call sites; one definition models all of them). -/
def collectStringsDeep (v : PyVal) : List String := budgetDedupAux (collectWalk v) [] 0

/-- The candidate keys scanned on every task block. -/
def candKeys : List String :=
  ["raw", "content", "text", "final_output", "result", "output", "message"]

/-- The candidate keys scanned on every artifact dict. -/
def artifactKeys : List String := ["content", "text", "raw", "result"]

/-- Candidate strings contributed by one `tasks_output` block (lines
492–556): non-blank strings under the candidate keys, deep-collected
strings for containers, then the artifact list (where plain strings are
taken without a blank check, as in the source). -/
def candidatesOfBlock (blk : PyVal) : List String :=
  match blk with
  | PyVal.dict kvs =>
    (candKeys.flatMap fun key =>
      match pyDictGet kvs key with
      | some (PyVal.str s) => if pyStrip s = "" then [] else [s]
      | some (PyVal.dict d) => collectStringsDeep (PyVal.dict d)
      | some (PyVal.list xs) => collectStringsDeep (PyVal.list xs)
      | _ => []) ++
    (match pyDictGet kvs "artifacts" with
     | some (PyVal.list arts) =>
       arts.flatMap fun a =>
         match a with
         | PyVal.dict ak =>
           artifactKeys.flatMap fun k =>
             match pyDictGet ak k with
             | some (PyVal.str v) => [v]
             | some (PyVal.dict d) => collectStringsDeep (PyVal.dict d)
             | some (PyVal.list xs) => collectStringsDeep (PyVal.list xs)
             | _ => []
         | _ => []
     | _ => [])
  | _ => []

/-- Candidate strings contributed by one `also_consider` entry (strings
are taken as-is, containers are deep-collected). -/
def candidatesOfExtra (e : PyVal) : List String :=
  match e with
  | PyVal.str s => [s]
  | PyVal.dict kvs => collectStringsDeep (PyVal.dict kvs)
  | PyVal.list xs => collectStringsDeep (PyVal.list xs)
  | _ => []

/-- The full candidate list of `_extract_all_json_blocks`. -/
def collectCandidates (tasksOutput alsoConsider : List PyVal) : List String :=
  tasksOutput.flatMap candidatesOfBlock ++ alsoConsider.flatMap candidatesOfExtra

/-- Fenced-block stage (lines 588–596): per fenced capture, brace-scan
then whole-parse (merged only when truthy). -/
def fencePhase (m : Merged) (s : String) : Merged :=
  (fenceBlocks s).foldl
    (fun m block =>
      let cleaned := pyStrip block
      let m := (braceScanJson cleaned).foldl mergeJsonInto m
      match jsonLoads cleaned with
      | some v => if pyTruthy v then mergeJsonInto m v else m
      | Option.none => m)
    m

/-- Bare-JSON stage (lines 599–607): a brace/bracket-delimited stripped
candidate is whole-parsed (and the brace scan skipped), otherwise the
candidate is brace-scanned. -/
def barePhase (m : Merged) (s : String) : Merged :=
  let ss := pyStrip s
  let braceDelim := (matchPref [obr] ss.data).isSome && ss.data.getLast? = some cbr
  let brackDelim := (matchPref ['['] ss.data).isSome && ss.data.getLast? = some ']'
  if braceDelim || brackDelim then
    match jsonLoads ss with
    | some v => if pyTruthy v then mergeJsonInto m v else m
    | Option.none => m
  else (braceScanJson ss).foldl mergeJsonInto m

/-- Key-value-block stage (lines 610–624). -/
def kvPhase (m : Merged) (s : String) : Merged :=
  match parseSummaryKvBlock s with
  | Option.none => m
  | some kv =>
    let m :=
      match kv.summary with
      | some sm =>
        if sm ≠ "" && sm.length > m.summary.length then { m with summary := sm } else m
      | Option.none => m
    let kp := kv.keyPoints.filter fun p => p ≠ ""
    let m := { m with insights := m.insights ++ kp, trends := m.trends ++ kp }
    let m := { m with recommendations := m.recommendations ++
        (kv.recs.filter fun r => r ≠ "").map fun rec => RecRow.mk PyVal.none rec "" }
    { m with sources := m.sources ++ kv.sources.filter fun u => u ≠ "" }

/-- `_extract_all_json_blocks(tasks_output, also_consider)`: candidate
collection, then the fence, bare-JSON, key-value and markdown stages in
source order, then the URL harvest over the joined candidates. -/
def extractAllJsonBlocks (tasksOutput alsoConsider : List PyVal) : Merged :=
  let candidates := collectCandidates tasksOutput alsoConsider
  let m := emptyMerged
  let m := candidates.foldl fencePhase m
  let m := candidates.foldl barePhase m
  let m := candidates.foldl kvPhase m
  let m := candidates.foldl extractFromMarkdown m
  { m with sources := m.sources ++ findUrls (joinNl candidates) }

/-- Fingerprint used by `_dedupe_dict_rows` on competitor rows: the
sorted `(key, _strip(value))` tuple; all rows share the key set
`{name, position, notes}`, so equality of fingerprints is equality of
the stripped field triples. -/
def compKey (r : CompRow) : String × String × String :=
  (pyStrip r.name, pyStrip r.position, pyStrip r.notes)

/-- `_dedupe_dict_rows` on competitor rows. -/
def dedupeCompRows (rows : List CompRow) : List CompRow :=
  dedupeByAux (fun _ => false) compKey rows []

/-- Fingerprint used by `_dedupe_dict_rows` on number rows. -/
def numKey (r : NumRow) : String × String × String :=
  (pyStrip r.metric, pyStrip r.value, pyStrip r.source)

/-- `_dedupe_dict_rows` on number rows. -/
def dedupeNumRows (rows : List NumRow) : List NumRow :=
  dedupeByAux (fun _ => false) numKey rows []

/-- Rendered recommendation line of `create_multislide_pptx` (lines
765–775): `f"{pr}) "` prefix only when the priority is a Python `int`
(which includes `bool`), then `action — Why: rationale` stripped of
surrounding spaces and EM DASHes. -/
def renderRecLine (r : RecRow) : String :=
  let pfx :=
    match r.priority with
    | PyVal.int n => toString n ++ ") "
    | PyVal.bool b => (if b then "True" else "False") ++ ") "
    | _ => ""
  pyStripSet [' ', emDash] (pfx ++ r.action ++ " " ++ emDashS ++ " Why: " ++ r.rationale)

/-- `rec_lines` before dedup (every accumulator row is a dict row, so
the string fallback branch of the source is unreachable here). -/
def recLinesOf (rows : List RecRow) : List String := rows.map renderRecLine

/-- The sections after the final dedup pass of `create_multislide_pptx`
(lines 757–777). -/
structure FinalSections where
  summary : String
  trends : List String
  insights : List String
  opportunities : List String
  risks : List String
  competitors : List CompRow
  numbers : List NumRow
  recLines : List String
  sources : List String
deriving DecidableEq

/-- Final dedup pass of `create_multislide_pptx`: `_strip` then
`_dedupe_list_keep_order` on the simple lists, `_dedupe_dict_rows` on
the row tables, rendering then `_dedupe_list_keep_order` on the
recommendations. -/
def finalDedup (m : Merged) : FinalSections where
  summary := m.summary
  trends := dedupeListKeepOrder (m.trends.map pyStrip)
  insights := dedupeListKeepOrder (m.insights.map pyStrip)
  opportunities := dedupeListKeepOrder (m.opportunities.map pyStrip)
  risks := dedupeListKeepOrder (m.risks.map pyStrip)
  competitors := dedupeCompRows m.competitors
  numbers := dedupeNumRows m.numbers
  recLines := dedupeListKeepOrder (recLinesOf m.recommendations)
  sources := dedupeListKeepOrder (m.sources.map pyStrip)

/-- `_dig_outputs(result)`: unwrap a dict-valued `result` key, read the
task list (`tasks_output` or `tasks`; a non-list value is not usable as
a task list — iterating or concatenating it in Python either skips
non-dict elements or raises into the handler of the caller — and is modelled
as the empty list), then append a final string/dict answer. -/
def digOutputs (result : PyVal) : PyVal × List PyVal :=
  let data :=
    match result with
    | PyVal.dict kvs =>
      match pyDictGet kvs "result" with
      | some (PyVal.dict d) => PyVal.dict d
      | _ => result
    | _ => result
  let rawTasks :=
    match data with
    | PyVal.dict kvs =>
      pyOr2 (pyGetD kvs "tasks_output") (pyOr2 (pyGetD kvs "tasks") (PyVal.list []))
    | _ => PyVal.list []
  let tasksOutput :=
    match rawTasks with
    | PyVal.list xs => xs
    | _ => []
  let tasksOutput :=
    match data with
    | PyVal.dict kvs =>
      let fa :=
        pyOr2 (pyGetD kvs "final_output")
          (pyOr2 (pyGetD kvs "raw") (pyOr2 (pyGetD kvs "text") (pyGetD kvs "content")))
      match fa with
      | PyVal.str s => tasksOutput ++ [PyVal.dict [("content", PyVal.str s)]]
      | PyVal.dict d => tasksOutput ++ [PyVal.dict [("result", PyVal.dict d)]]
      | _ => tasksOutput
    | _ => tasksOutput
  (data, tasksOutput)

/-- The `also_consider` list built in `create_multislide_pptx` (lines
699–728): non-blank strings under five keys of `data`, then up to 50
deep-collected strings. -/
def alsoConsiderOf (data : PyVal) : List PyVal :=
  match data with
  | PyVal.dict kvs =>
    (["summary", "final_output", "raw", "content", "text"].flatMap fun k =>
      match pyDictGet kvs k with
      | some (PyVal.str s) => if pyStrip s = "" then [] else [PyVal.str s]
      | _ => []) ++
    ((collectStringsDeep (PyVal.dict kvs)).take 50).map PyVal.str
  | _ => []

/-- The pure data path of `create_multislide_pptx` (lines 695–777):
extraction, direct merges of the structured dicts, the summary
fallback, and the final dedup pass. -/
def buildSections (result : PyVal) : FinalSections :=
  let dt := digOutputs result
  let data := dt.1
  let tasksOutput := dt.2
  let sections := extractAllJsonBlocks tasksOutput (alsoConsiderOf data)
  let sections :=
    match data with
    | PyVal.dict _ => mergeJsonInto sections data
    | _ => sections
  let sections :=
    tasksOutput.foldl
      (fun s blk =>
        match blk with
        | PyVal.dict kvs =>
          let s := mergeJsonInto s blk
          match pyDictGet kvs "result" with
          | some (PyVal.dict inner) => mergeJsonInto s (PyVal.dict inner)
          | _ => s
        | _ => s)
      sections
  let sections :=
    if sections.summary = "" then
      { sections with summary :=
          match data with
          | PyVal.dict kvs => stripOptV (pyDictGet kvs "summary")
          | _ => "" }
    else sections
  let sections :=
    if sections.summary = "" then { sections with summary := "No summary available." }
    else sections
  finalDedup sections

/-- Return value of `create_multislide_pptx`: the file path on success,
an error dict on failure. -/
inductive PptResult where
  | path (p : String)
  | err (error details : String)
deriving DecidableEq

/-- `create_multislide_pptx(result, topic, file_path)`: the pure data
path is total (embedded above); the `python-pptx` slide construction and
the save step are external side effects modelled by two `Except`
outcomes.  The outer `except Exception` handler maps any body failure to
the `ppt_build_failed` dict, the inner handler wraps a save failure with
the `Could not save pptx:` prefix, and the success path returns the
`file_path` argument unchanged (the source never reassigns it). -/
def createMultislidePptx (result : PyVal) (topic filePath : String)
    (buildOutcome saveOutcome : Except String Unit) : PptResult :=
  let _sections := buildSections result
  let _topic := topic
  match buildOutcome with
  | Except.error e => PptResult.err "ppt_build_failed" e
  | Except.ok _ =>
    match saveOutcome with
    | Except.error e => PptResult.err "ppt_build_failed" ("Could not save pptx: " ++ e)
    | Except.ok _ => PptResult.path filePath

/-- Whether a value is a Python dict. -/
def isDictV : PyVal → Bool
  | PyVal.dict _ => true
  | _ => false

/-- What one `_merge_json_into(merged, X)` call does to `summary`: the
stripped candidate when the `summary` key is present. -/
def cSummary (X : PyVal) : Option String :=
  match X with
  | PyVal.dict kvs =>
    if pyContainsKey kvs "summary" then some (stripOptV (pyDictGet kvs "summary")) else Option.none
  | _ => Option.none

/-- The research sub-dict read by `_merge_json_into` (empty when absent;
an empty research dict contributes nothing to every field). -/
def researchKvs (X : PyVal) : List (String × PyVal) :=
  match X with
  | PyVal.dict kvs =>
    match pyDictGet kvs "research" with
    | some (PyVal.dict rk) => rk
    | _ => []
  | _ => []

/-- Items appended to `trends` by one `_merge_json_into` call. -/
def cTrends (X : PyVal) : List String :=
  match X with
  | PyVal.dict kvs =>
    researchTrendsContrib (pyDictGet (researchKvs X) "trends") ++
      trendsContrib (pyDictGet kvs "trends") ++ keyPointsContrib kvs
  | _ => []

/-- Items appended to `insights` by one `_merge_json_into` call. -/
def cInsights (X : PyVal) : List String :=
  match X with
  | PyVal.dict kvs =>
    simpleContrib (pyDictGet (researchKvs X) "insights") ++
      simpleContrib (pyDictGet kvs "insights") ++ keyPointsContrib kvs
  | _ => []

/-- Items appended to `opportunities` by one `_merge_json_into` call. -/
def cOpportunities (X : PyVal) : List String :=
  match X with
  | PyVal.dict kvs =>
    simpleContrib (pyDictGet (researchKvs X) "opportunities") ++
      simpleContrib (pyDictGet kvs "opportunities")
  | _ => []

/-- Items appended to `risks` by one `_merge_json_into` call. -/
def cRisks (X : PyVal) : List String :=
  match X with
  | PyVal.dict kvs =>
    simpleContrib (pyDictGet (researchKvs X) "risks") ++ simpleContrib (pyDictGet kvs "risks")
  | _ => []

/-- Items appended to `sources` by one `_merge_json_into` call. -/
def cSources (X : PyVal) : List String :=
  match X with
  | PyVal.dict kvs =>
    simpleContrib (pyDictGet (researchKvs X) "sources") ++ simpleContrib (pyDictGet kvs "sources")
  | _ => []

/-- Rows appended to `competitors` by one `_merge_json_into` call. -/
def cCompetitors (X : PyVal) : List CompRow :=
  match X with
  | PyVal.dict kvs =>
    researchCompContrib (researchKvs X) ++ compContrib (pyDictGet kvs "competitors")
  | _ => []

/-- Rows appended to `numbers` by one `_merge_json_into` call. -/
def cNumbers (X : PyVal) : List NumRow :=
  match X with
  | PyVal.dict kvs => researchNumContrib (researchKvs X) ++ numContrib (pyDictGet kvs "numbers")
  | _ => []

/-- Rows appended to `recommendations` by one `_merge_json_into` call. -/
def cRecommendations (X : PyVal) : List RecRow :=
  match X with
  | PyVal.dict kvs =>
    researchRecContrib (researchKvs X) ++ recContrib (pyDictGet kvs "recommendations")
  | _ => []

/-- Keys recorded while `dedupeByAux` walks a list (mirror of the `seen`
set; used by the dedup lemmas). -/
def seenAfter {α κ : Type} [DecidableEq κ] (skip : α → Bool) (key : α → κ) :
    List α → List κ → List κ
  | [], seen => seen
  | x :: xs, seen =>
    if skip x then seenAfter skip key xs seen
    else if key x ∈ seen then seenAfter skip key xs seen
    else seenAfter skip key xs (key x :: seen)

/-- Competitor row as the Python dict it models. -/
def compRowToPy (r : CompRow) : PyVal :=
  PyVal.dict
    [("name", PyVal.str r.name), ("position", PyVal.str r.position), ("notes", PyVal.str r.notes)]

/-- Number row as the Python dict it models. -/
def numRowToPy (r : NumRow) : PyVal :=
  PyVal.dict
    [("metric", PyVal.str r.metric), ("value", PyVal.str r.value), ("source", PyVal.str r.source)]

/-- Recommendation row as the Python dict it models. -/
def recRowToPy (r : RecRow) : PyVal :=
  PyVal.dict
    [("priority", r.priority), ("action", PyVal.str r.action), ("rationale", PyVal.str r.rationale)]

/-- View of the accumulator as the nine-key Python dict it models, in
`SECTION_KEYS` order. -/
def mergedToPy (m : Merged) : List (String × PyVal) :=
  [("summary", PyVal.str m.summary),
   ("trends", PyVal.list (m.trends.map PyVal.str)),
   ("insights", PyVal.list (m.insights.map PyVal.str)),
   ("opportunities", PyVal.list (m.opportunities.map PyVal.str)),
   ("risks", PyVal.list (m.risks.map PyVal.str)),
   ("competitors", PyVal.list (m.competitors.map compRowToPy)),
   ("numbers", PyVal.list (m.numbers.map numRowToPy)),
   ("recommendations", PyVal.list (m.recommendations.map recRowToPy)),
   ("sources", PyVal.list (m.sources.map PyVal.str))]

/-- Canonical-schema shape: exactly the nine keys in order, `summary` a
string, the other eight lists (never null or missing). -/
def schemaWF : List (String × PyVal) → Bool
  | [("summary", PyVal.str _), ("trends", PyVal.list _), ("insights", PyVal.list _),
     ("opportunities", PyVal.list _), ("risks", PyVal.list _), ("competitors", PyVal.list _),
     ("numbers", PyVal.list _), ("recommendations", PyVal.list _),
     ("sources", PyVal.list _)] => true
  | _ => false

/-- Whether a (stripped, non-empty) line switches the section in
`_extract_from_markdown` — via the `#`-heading path or the bare-alias
path. -/
def lineIsHeader (ln : String) : Bool :=
  (match ln.data with
   | c :: _ =>
     if c = '#' then (normHeader (pyStrip (pyLStripSet ['#', ' '] ln))).isSome else false
   | [] => false) ||
  (normHeader (pyRStripSet [':'] (pyLower ln))).isSome

/-- The fence stage recovers nothing from `s`: every fenced capture has
an empty brace scan and no truthy whole parse. -/
def fenceInert (s : String) : Bool :=
  (fenceBlocks s).all fun b =>
    (braceScanJson (pyStrip b)).isEmpty &&
    (match jsonLoads (pyStrip b) with
     | some v => !pyTruthy v
     | Option.none => true)

/-- The bare-JSON stage recovers nothing from `s`: a delimited candidate
has no truthy whole parse, an undelimited one has an empty brace scan. -/
def bareInert (s : String) : Bool :=
  if ((matchPref [obr] (pyStrip s).data).isSome &&
        (pyStrip s).data.getLast? = some cbr) ||
      ((matchPref ['['] (pyStrip s).data).isSome &&
        (pyStrip s).data.getLast? = some ']') then
    match jsonLoads (pyStrip s) with
    | some v => !pyTruthy v
    | Option.none => true
  else (braceScanJson (pyStrip s)).isEmpty

/-- No line of `s` is a heading, so the markdown fallback never opens a
section and never flushes. -/
def mdNoHeader (s : String) : Bool :=
  ((pySplitLines s).map pyRStrip).all fun raw =>
    pyStrip raw = "" || !lineIsHeader (pyStrip raw)

/-- Every per-fragment strategy of `_extract_all_json_blocks` recovers
nothing from `s`. -/
def fragmentInert (s : String) : Bool :=
  fenceInert s && bareInert s && (parseSummaryKvBlock s).isNone && mdNoHeader s

/-- C3 round-trip fragment. -/
def c3Input : String := "\x7b\"trends\":[\"A\"],\"sources\":[\"https://x.test\"]\x7d"

/-- The second `sources` entry the URL harvester re-extracts from the C3
fragment (the URL with the trailing JSON punctuation). -/
def c3JunkUrl : String := "https://x.test\"]\x7d"

/-- C5 brace-scan fragment. -/
def c5Input : String :=
  "Intro text \x7b\"summary\":\"S1\"\x7d middle \x7b\"summary\":\"S2 longer than S1\"\x7d trailing"

/-- C6 all-string-array fragment. -/
def c6Input : String := "[\"alpha\", \"beta\"]"

/-- C8 counterexample: the English keyword the claim asserts. -/
def c8BadInput : String := "Recommendations:\n[priority 2] Act - Why"

/-- C8 amended-behaviour input: the Norwegian keyword, an EN-DASH line,
a hyphen line, a separator-free line, two lines that match only through
regex backtracking (ending right after the bracket and right after the
digits), and a second flush. -/
def c8AmendedInput : String :=
  "Recommendations:\n[prioritet 5] Bygg API " ++ enDashS ++
  " Raskere\nAnsett folk - Mangler\nTredje uten skilletegn\n[prioritet 7]\nprioritet 55" ++
  "\nRecommendations:\nE " ++ enDashS ++ " F"

/-- C9 counterexample: an EM-DASH-separated competitors line. -/
def c9BadInput : String := "Competitors:\nAcme " ++ emDashS ++ " Leader"

/-- C9 amended-behaviour input: EN-DASH with whitespace, a colon with no
whitespace, and a hyphen line with a missing third field. -/
def c9AmendedInput : String :=
  "Key Numbers:\nMarket size " ++ enDashS ++ " 10 Bn " ++ enDashS ++
  " Gartner\nCAGR:7%\nRevenue - 5M"

/-- C1 witness bundle: a task block with a malformed fragment
(unbalanced braces and a truncated fence). -/
def c1WitnessTask : PyVal := PyVal.dict [("raw", PyVal.str "\x7b\x7b\x7b not json ``` trunc")]

/-- C1 witness extra candidate: plain prose. -/
def c1WitnessExtra : PyVal := PyVal.str "plain prose fragment with nothing to recover"

/-- Splitting a dedup walk at an append boundary. -/
theorem dedupeByAux_append {α κ : Type} [DecidableEq κ] (skip : α → Bool) (key : α → κ)
    (xs ys : List α) (seen : List κ) :
    dedupeByAux skip key (xs ++ ys) seen =
      dedupeByAux skip key xs seen ++ dedupeByAux skip key ys (seenAfter skip key xs seen) := by
  induction xs generalizing seen with
  | nil => simp [dedupeByAux, seenAfter]
  | cons x xs ih =>
    simp only [List.cons_append, dedupeByAux, seenAfter]
    by_cases h1 : skip x
    · simp [h1, ih]
    · by_cases h2 : key x ∈ seen
      · simp [h1, h2, ih]
      · simp [h1, h2, ih]

/-- The seen set at an append boundary. -/
theorem seenAfter_append {α κ : Type} [DecidableEq κ] (skip : α → Bool) (key : α → κ)
    (xs ys : List α) (seen : List κ) :
    seenAfter skip key (xs ++ ys) seen = seenAfter skip key ys (seenAfter skip key xs seen) := by
  induction xs generalizing seen with
  | nil => rfl
  | cons x xs ih =>
    simp only [List.cons_append, seenAfter]
    by_cases h1 : skip x
    · simp [h1, ih]
    · by_cases h2 : key x ∈ seen
      · simp [h1, h2, ih]
      · simp [h1, h2, ih]

/-- The seen set only grows. -/
theorem mem_seenAfter {α κ : Type} [DecidableEq κ] (skip : α → Bool) (key : α → κ)
    (xs : List α) (seen : List κ) (k : κ) (hk : k ∈ seen) :
    k ∈ seenAfter skip key xs seen := by
  induction xs generalizing seen with
  | nil => simpa [seenAfter] using hk
  | cons x xs ih =>
    simp only [seenAfter]
    by_cases h1 : skip x
    · simpa [h1] using ih seen hk
    · by_cases h2 : key x ∈ seen
      · simpa [h1, h2] using ih seen hk
      · simpa [h1, h2] using ih (key x :: seen) (List.mem_cons_of_mem _ hk)

/-- After walking a list, the key of every non-skipped element is seen. -/
theorem key_mem_seenAfter {α κ : Type} [DecidableEq κ] (skip : α → Bool) (key : α → κ)
    (xs : List α) (seen : List κ) (x : α) (hx : x ∈ xs) (hs : skip x = false) :
    key x ∈ seenAfter skip key xs seen := by
  induction xs generalizing seen with
  | nil => cases hx
  | cons y ys ih =>
    rcases List.mem_cons.mp hx with rfl | hmem
    · simp only [seenAfter, hs]
      by_cases h2 : key x ∈ seen
      · simpa [h2] using mem_seenAfter skip key ys seen (key x) h2
      · simpa [h2] using
          mem_seenAfter skip key ys (key x :: seen) (key x) (List.mem_cons_self _ _)
    · simp only [seenAfter]
      by_cases h1 : skip y
      · simpa [h1] using ih seen hmem
      · by_cases h2 : key y ∈ seen
        · simpa [h1, h2] using ih seen hmem
        · simpa [h1, h2] using ih (key y :: seen) hmem

/-- A walk over elements whose keys are all seen produces nothing. -/
theorem dedupeByAux_eq_nil {α κ : Type} [DecidableEq κ] (skip : α → Bool) (key : α → κ)
    (ys : List α) (seen : List κ) (h : ∀ y ∈ ys, skip y = false → key y ∈ seen) :
    dedupeByAux skip key ys seen = [] := by
  induction ys generalizing seen with
  | nil => rfl
  | cons y ys ih =>
    simp only [dedupeByAux]
    by_cases h1 : skip y
    · simpa [h1] using ih seen fun z hz => h z (List.mem_cons_of_mem _ hz)
    · have hk : key y ∈ seen :=
        h y (List.mem_cons_self _ _) (by simpa using h1)
      simpa [h1, hk] using ih seen fun z hz => h z (List.mem_cons_of_mem _ hz)

/-- Re-appending an already-appended block changes nothing after dedup. -/
theorem dedupe_dup {α κ : Type} [DecidableEq κ] (skip : α → Bool) (key : α → κ)
    (l s : List α) :
    dedupeByAux skip key ((l ++ s) ++ s) [] = dedupeByAux skip key (l ++ s) [] := by
  rw [dedupeByAux_append]
  have h : dedupeByAux skip key s (seenAfter skip key (l ++ s) []) = [] := by
    apply dedupeByAux_eq_nil
    intro y hy hskip
    rw [seenAfter_append]
    exact key_mem_seenAfter skip key s _ y hy hskip
  rw [h, List.append_nil]

/-- Re-offering the summary candidate that was already offered is a
no-op. -/
theorem updateSummary_idem (a s : String) :
    updateSummary (updateSummary a s) s = updateSummary a s := by
  by_cases h : s.length > a.length
  · simp [updateSummary, h]
  · simp [updateSummary, h]

/-- The kept summary has the longer length. -/
theorem updateSummary_length (a s : String) :
    (updateSummary a s).length = Nat.max a.length s.length := by
  by_cases h : s.length > a.length
  · simp only [updateSummary, h, if_true]
    exact (Nat.max_eq_right (Nat.le_of_lt h)).symm
  · simp only [updateSummary, h, if_false]
    exact (Nat.max_eq_left (Nat.le_of_not_lt h)).symm

/-- The summary is replaced only by a strictly longer candidate. -/
theorem updateSummary_strict (cur cand : String) (h : updateSummary cur cand ≠ cur) :
    cur.length < cand.length := by
  by_cases hl : cand.length > cur.length
  · exact hl
  · exact absurd (by simp [updateSummary, hl]) h

/-- A fold by a function that fixes every accumulator is the identity. -/
theorem foldl_id_of_inert {β γ : Type} (f : γ → β → γ) (l : List β) (m : γ)
    (h : ∀ x ∈ l, ∀ acc, f acc x = acc) : l.foldl f m = m := by
  induction l generalizing m with
  | nil => rfl
  | cons x xs ih =>
    rw [List.foldl_cons, h x (List.mem_cons_self _ _)]
    exact ih m fun y hy acc => h y (List.mem_cons_of_mem _ hy) acc

/-- What one merge call does to `summary`. -/
theorem merge_summary_proj (m : Merged) (X : PyVal) :
    (mergeJsonInto m X).summary =
      match cSummary X with
      | some s => updateSummary m.summary s
      | Option.none => m.summary := by
  cases X with
  | dict kvs =>
    simp only [mergeJsonInto, cSummary, mergeResearchBlock]
    rcases hr : pyDictGet kvs "research" with _ | v
    · by_cases hs : pyContainsKey kvs "summary" <;> simp [hr, hs]
    · cases v <;> by_cases hs : pyContainsKey kvs "summary" <;> simp [hr, hs]
  | str s => rfl
  | int n => rfl
  | bool b => rfl
  | none => rfl
  | list xs => rfl

/-- What one merge call appends to `trends`. -/
theorem merge_trends_proj (m : Merged) (X : PyVal) :
    (mergeJsonInto m X).trends = m.trends ++ cTrends X := by
  cases X with
  | dict kvs =>
    simp only [mergeJsonInto, cTrends, researchKvs, mergeResearchBlock]
    rcases hr : pyDictGet kvs "research" with _ | v
    · by_cases hs : pyContainsKey kvs "summary" <;>
        simp [hr, hs, researchTrendsContrib, pyDictGet, List.append_assoc]
    · cases v <;> by_cases hs : pyContainsKey kvs "summary" <;>
        simp [hr, hs, researchTrendsContrib, pyDictGet, List.append_assoc]
  | str s => simp [mergeJsonInto, cTrends]
  | int n => simp [mergeJsonInto, cTrends]
  | bool b => simp [mergeJsonInto, cTrends]
  | none => simp [mergeJsonInto, cTrends]
  | list xs => simp [mergeJsonInto, cTrends]

/-- What one merge call appends to `insights`. -/
theorem merge_insights_proj (m : Merged) (X : PyVal) :
    (mergeJsonInto m X).insights = m.insights ++ cInsights X := by
  cases X with
  | dict kvs =>
    simp only [mergeJsonInto, cInsights, researchKvs, mergeResearchBlock]
    rcases hr : pyDictGet kvs "research" with _ | v
    · by_cases hs : pyContainsKey kvs "summary" <;>
        simp [hr, hs, simpleContrib, coerceList, pyDictGet, List.append_assoc]
    · cases v <;> by_cases hs : pyContainsKey kvs "summary" <;>
        simp [hr, hs, simpleContrib, coerceList, pyDictGet, List.append_assoc]
  | str s => simp [mergeJsonInto, cInsights]
  | int n => simp [mergeJsonInto, cInsights]
  | bool b => simp [mergeJsonInto, cInsights]
  | none => simp [mergeJsonInto, cInsights]
  | list xs => simp [mergeJsonInto, cInsights]

/-- What one merge call appends to `opportunities`. -/
theorem merge_opportunities_proj (m : Merged) (X : PyVal) :
    (mergeJsonInto m X).opportunities = m.opportunities ++ cOpportunities X := by
  cases X with
  | dict kvs =>
    simp only [mergeJsonInto, cOpportunities, researchKvs, mergeResearchBlock]
    rcases hr : pyDictGet kvs "research" with _ | v
    · by_cases hs : pyContainsKey kvs "summary" <;>
        simp [hr, hs, simpleContrib, coerceList, pyDictGet, List.append_assoc]
    · cases v <;> by_cases hs : pyContainsKey kvs "summary" <;>
        simp [hr, hs, simpleContrib, coerceList, pyDictGet, List.append_assoc]
  | str s => simp [mergeJsonInto, cOpportunities]
  | int n => simp [mergeJsonInto, cOpportunities]
  | bool b => simp [mergeJsonInto, cOpportunities]
  | none => simp [mergeJsonInto, cOpportunities]
  | list xs => simp [mergeJsonInto, cOpportunities]

/-- What one merge call appends to `risks`. -/
theorem merge_risks_proj (m : Merged) (X : PyVal) :
    (mergeJsonInto m X).risks = m.risks ++ cRisks X := by
  cases X with
  | dict kvs =>
    simp only [mergeJsonInto, cRisks, researchKvs, mergeResearchBlock]
    rcases hr : pyDictGet kvs "research" with _ | v
    · by_cases hs : pyContainsKey kvs "summary" <;>
        simp [hr, hs, simpleContrib, coerceList, pyDictGet, List.append_assoc]
    · cases v <;> by_cases hs : pyContainsKey kvs "summary" <;>
        simp [hr, hs, simpleContrib, coerceList, pyDictGet, List.append_assoc]
  | str s => simp [mergeJsonInto, cRisks]
  | int n => simp [mergeJsonInto, cRisks]
  | bool b => simp [mergeJsonInto, cRisks]
  | none => simp [mergeJsonInto, cRisks]
  | list xs => simp [mergeJsonInto, cRisks]

/-- What one merge call appends to `sources`. -/
theorem merge_sources_proj (m : Merged) (X : PyVal) :
    (mergeJsonInto m X).sources = m.sources ++ cSources X := by
  cases X with
  | dict kvs =>
    simp only [mergeJsonInto, cSources, researchKvs, mergeResearchBlock]
    rcases hr : pyDictGet kvs "research" with _ | v
    · by_cases hs : pyContainsKey kvs "summary" <;>
        simp [hr, hs, simpleContrib, coerceList, pyDictGet, List.append_assoc]
    · cases v <;> by_cases hs : pyContainsKey kvs "summary" <;>
        simp [hr, hs, simpleContrib, coerceList, pyDictGet, List.append_assoc]
  | str s => simp [mergeJsonInto, cSources]
  | int n => simp [mergeJsonInto, cSources]
  | bool b => simp [mergeJsonInto, cSources]
  | none => simp [mergeJsonInto, cSources]
  | list xs => simp [mergeJsonInto, cSources]

/-- What one merge call appends to `competitors`. -/
theorem merge_competitors_proj (m : Merged) (X : PyVal) :
    (mergeJsonInto m X).competitors = m.competitors ++ cCompetitors X := by
  cases X with
  | dict kvs =>
    simp only [mergeJsonInto, cCompetitors, researchKvs, mergeResearchBlock]
    rcases hr : pyDictGet kvs "research" with _ | v
    · by_cases hs : pyContainsKey kvs "summary" <;>
        simp [hr, hs, researchCompContrib, pyGetD, pyDictGet, pyOr2, pyTruthy,
          List.append_assoc]
    · cases v <;> by_cases hs : pyContainsKey kvs "summary" <;>
        simp [hr, hs, researchCompContrib, pyGetD, pyDictGet, pyOr2, pyTruthy,
          List.append_assoc]
  | str s => simp [mergeJsonInto, cCompetitors]
  | int n => simp [mergeJsonInto, cCompetitors]
  | bool b => simp [mergeJsonInto, cCompetitors]
  | none => simp [mergeJsonInto, cCompetitors]
  | list xs => simp [mergeJsonInto, cCompetitors]

/-- What one merge call appends to `numbers`. -/
theorem merge_numbers_proj (m : Merged) (X : PyVal) :
    (mergeJsonInto m X).numbers = m.numbers ++ cNumbers X := by
  cases X with
  | dict kvs =>
    simp only [mergeJsonInto, cNumbers, researchKvs, mergeResearchBlock]
    rcases hr : pyDictGet kvs "research" with _ | v
    · by_cases hs : pyContainsKey kvs "summary" <;>
        simp [hr, hs, researchNumContrib, pyGetD, pyDictGet, pyOr2, pyTruthy,
          List.append_assoc]
    · cases v <;> by_cases hs : pyContainsKey kvs "summary" <;>
        simp [hr, hs, researchNumContrib, pyGetD, pyDictGet, pyOr2, pyTruthy,
          List.append_assoc]
  | str s => simp [mergeJsonInto, cNumbers]
  | int n => simp [mergeJsonInto, cNumbers]
  | bool b => simp [mergeJsonInto, cNumbers]
  | none => simp [mergeJsonInto, cNumbers]
  | list xs => simp [mergeJsonInto, cNumbers]

/-- What one merge call appends to `recommendations`. -/
theorem merge_recommendations_proj (m : Merged) (X : PyVal) :
    (mergeJsonInto m X).recommendations = m.recommendations ++ cRecommendations X := by
  cases X with
  | dict kvs =>
    simp only [mergeJsonInto, cRecommendations, researchKvs, mergeResearchBlock]
    rcases hr : pyDictGet kvs "research" with _ | v
    · by_cases hs : pyContainsKey kvs "summary" <;>
        simp [hr, hs, researchRecContrib, pyDictGet, List.append_assoc]
    · cases v <;> by_cases hs : pyContainsKey kvs "summary" <;>
        simp [hr, hs, researchRecContrib, pyDictGet, List.append_assoc]
  | str s => simp [mergeJsonInto, cRecommendations]
  | int n => simp [mergeJsonInto, cRecommendations]
  | bool b => simp [mergeJsonInto, cRecommendations]
  | none => simp [mergeJsonInto, cRecommendations]
  | list xs => simp [mergeJsonInto, cRecommendations]

/-- C2 (counterexample): `_merge_json_into` itself appends without
deduplication, so re-merging the same partial duplicates list entries —
`merge(merge(A, X), X) ≠ merge(A, X)` already for the empty accumulator
and `X = {"trends": ["A"]}` (the left side holds
`trends == ["A", "A"]`). -/
theorem mergeJsonInto_not_idempotent :
    mergeJsonInto (mergeJsonInto emptyMerged (PyVal.dict [("trends", PyVal.list [PyVal.str "A"])]))
        (PyVal.dict [("trends", PyVal.list [PyVal.str "A"])]) ≠
      mergeJsonInto emptyMerged (PyVal.dict [("trends", PyVal.list [PyVal.str "A"])]) := by
  decide

/-- C2 (amended): merging is idempotent only up to the final dedup pass
of `create_multislide_pptx`: for every accumulator `A` and partial `X`,
re-merging `X` leaves all nine sections unchanged after that pass, and
never changes `summary` even before it. -/
theorem merge_idempotent_after_final_dedup (A : Merged) (X : PyVal) :
    finalDedup (mergeJsonInto (mergeJsonInto A X) X) = finalDedup (mergeJsonInto A X) ∧
    (mergeJsonInto (mergeJsonInto A X) X).summary = (mergeJsonInto A X).summary := by
  have hsum : (mergeJsonInto (mergeJsonInto A X) X).summary = (mergeJsonInto A X).summary := by
    rcases hc : cSummary X with _ | s
    · simp [merge_summary_proj, hc]
    · simp [merge_summary_proj, hc, updateSummary_idem]
  refine ⟨?_, hsum⟩
  simp only [finalDedup, FinalSections.mk.injEq]
  refine ⟨hsum, ?_, ?_, ?_, ?_, ?_, ?_, ?_, ?_⟩
  · rw [merge_trends_proj, merge_trends_proj]
    simp only [dedupeListKeepOrder, List.map_append]
    exact dedupe_dup _ _ _ _
  · rw [merge_insights_proj, merge_insights_proj]
    simp only [dedupeListKeepOrder, List.map_append]
    exact dedupe_dup _ _ _ _
  · rw [merge_opportunities_proj, merge_opportunities_proj]
    simp only [dedupeListKeepOrder, List.map_append]
    exact dedupe_dup _ _ _ _
  · rw [merge_risks_proj, merge_risks_proj]
    simp only [dedupeListKeepOrder, List.map_append]
    exact dedupe_dup _ _ _ _
  · rw [merge_competitors_proj, merge_competitors_proj]
    simp only [dedupeCompRows]
    exact dedupe_dup _ _ _ _
  · rw [merge_numbers_proj, merge_numbers_proj]
    simp only [dedupeNumRows]
    exact dedupe_dup _ _ _ _
  · rw [merge_recommendations_proj, merge_recommendations_proj]
    simp only [dedupeListKeepOrder, recLinesOf, List.map_append]
    exact dedupe_dup _ _ _ _
  · rw [merge_sources_proj, merge_sources_proj]
    simp only [dedupeListKeepOrder, List.map_append]
    exact dedupe_dup _ _ _ _

/-- The fold seed bounds the maximum fold. -/
theorem init_le_foldl_max (l : List Nat) (a : Nat) : a ≤ l.foldl Nat.max a := by
  induction l generalizing a with
  | nil => exact Nat.le_refl a
  | cons x xs ih => exact Nat.le_trans (Nat.le_max_left a x) (ih (Nat.max a x))

/-- Every member bounds the maximum fold. -/
theorem mem_le_foldl_max (l : List Nat) (a x : Nat) (hx : x ∈ l) :
    x ≤ l.foldl Nat.max a := by
  induction l generalizing a with
  | nil => cases hx
  | cons y ys ih =>
    rcases List.mem_cons.mp hx with rfl | hmem
    · exact Nat.le_trans (Nat.le_max_right a x) (init_le_foldl_max ys (Nat.max a x))
    · exact ih (Nat.max a y) hmem

/-- Merging an object whose only key is `summary` applies exactly the
replace-when-longer rule to the stripped candidate. -/
theorem merge_summary_single (m : Merged) (c : String) :
    (mergeJsonInto m (PyVal.dict [("summary", PyVal.str c)])).summary =
      updateSummary m.summary (pyStrip c) := by
  rw [merge_summary_proj]
  rfl

/-- The summary after a run of merges over summary objects is the fold
of the replace-when-longer rule over the stripped candidates. -/
theorem summaryFold_eq (cands : List String) (m : Merged) :
    ((cands.foldl
        (fun acc c => mergeJsonInto acc (PyVal.dict [("summary", PyVal.str c)])) m).summary) =
      (cands.map pyStrip).foldl updateSummary m.summary := by
  induction cands generalizing m with
  | nil => rfl
  | cons c cs ih =>
    simp only [List.foldl_cons, List.map_cons]
    rw [ih, merge_summary_single]

/-- The length of the folded summary is the running maximum. -/
theorem foldl_updateSummary_length (cands : List String) (s0 : String) :
    ((cands.foldl updateSummary s0).length) =
      (cands.map String.length).foldl Nat.max s0.length := by
  induction cands generalizing s0 with
  | nil => rfl
  | cons c cs ih =>
    simp only [List.foldl_cons, List.map_cons]
    rw [ih, updateSummary_length]

/-- C4: over any run of the engine on a sequence of (stripped) candidate
summaries, the stored summary is only ever replaced by a strictly longer
candidate, so the final summary length bounds every candidate length and
equals the length of the longest one (the running maximum). -/
theorem summary_monotonic (cands : List String) (h : ∀ c ∈ cands, pyStrip c = c) :
    (∀ c ∈ cands,
      c.length ≤
        ((cands.foldl
            (fun acc c2 => mergeJsonInto acc (PyVal.dict [("summary", PyVal.str c2)]))
            emptyMerged).summary).length) ∧
    ((cands.foldl
        (fun acc c2 => mergeJsonInto acc (PyVal.dict [("summary", PyVal.str c2)]))
        emptyMerged).summary).length = (cands.map String.length).foldl Nat.max 0 ∧
    (∀ cur cand : String, updateSummary cur cand ≠ cur → cur.length < cand.length) := by
  have hmap : cands.map pyStrip = cands := by
    conv_rhs => rw [← List.map_id cands]
    exact List.map_congr_left fun c hc => h c hc
  have hlen :
      ((cands.foldl
          (fun acc c2 => mergeJsonInto acc (PyVal.dict [("summary", PyVal.str c2)]))
          emptyMerged).summary).length = (cands.map String.length).foldl Nat.max 0 := by
    rw [summaryFold_eq, hmap]
    exact foldl_updateSummary_length cands ""
  refine ⟨?_, hlen, fun cur cand => updateSummary_strict cur cand⟩
  intro c hc
  rw [hlen]
  exact mem_le_foldl_max _ 0 _ (List.mem_map_of_mem String.length hc)

/-- C4 witness: the run over `["ab", "abcd", "a"]` (all pre-stripped)
keeps `"abcd"`, whose length `4` is the maximum. -/
theorem summary_monotonic_witness :
    (∀ c ∈ ["ab", "abcd", "a"], pyStrip c = c) ∧
    ((["ab", "abcd", "a"].foldl
        (fun acc c2 => mergeJsonInto acc (PyVal.dict [("summary", PyVal.str c2)]))
        emptyMerged).summary).length =
      (["ab", "abcd", "a"].map String.length).foldl Nat.max 0 ∧
    (∀ c ∈ ["ab", "abcd", "a"],
      c.length ≤
        ((["ab", "abcd", "a"].foldl
            (fun acc c2 => mergeJsonInto acc (PyVal.dict [("summary", PyVal.str c2)]))
            emptyMerged).summary).length) :=
  ⟨by decide, (summary_monotonic ["ab", "abcd", "a"] (by decide)).2.1,
    (summary_monotonic ["ab", "abcd", "a"] (by decide)).1⟩

/-- C3 (counterexample): on the strict-JSON round-trip fragment the
resulting `sources` is NOT `["https://x.test"]` — the URL harvester runs
over the raw fragment as well and re-captures the URL together with the
trailing `"]` and brace. -/
theorem roundTrip_sources_not_singleton :
    (extractAllJsonBlocks [] [PyVal.str c3Input]).sources ≠ ["https://x.test"] := by
  decide

/-- C3 (amended): on the strict-JSON round-trip fragment the engine
yields `trends == ["A"]`, an empty summary and empty fields everywhere
else except `sources`, which holds the clean URL from the parsed object
followed by the harvester re-capture with trailing JSON punctuation. -/
theorem roundTrip_strict_json :
    extractAllJsonBlocks [] [PyVal.str c3Input] =
      { emptyMerged with trends := ["A"], sources := ["https://x.test", c3JunkUrl] } := by
  decide

/-- C5: the brace-depth scan recovers both objects embedded in the C5
fragment, and the engine keeps the longer summary. -/
theorem braceScan_recovers_both :
    braceScanJson (pyStrip c5Input) =
      [PyVal.dict [("summary", PyVal.str "S1")],
       PyVal.dict [("summary", PyVal.str "S2 longer than S1")]] ∧
    (extractAllJsonBlocks [] [PyVal.str c5Input]).summary = "S2 longer than S1" := by
  constructor
  · decide
  · decide

/-- C6 (counterexample): a candidate that is exactly a JSON array of
strings is parsed but contributes nothing — `insights` stays empty
instead of receiving the strings. -/
theorem array_does_not_feed_insights :
    (extractAllJsonBlocks [] [PyVal.str c6Input]).insights = [] ∧
    (extractAllJsonBlocks [] [PyVal.str c6Input]).insights ≠ ["alpha", "beta"] := by
  constructor
  · decide
  · decide

/-- C6 (amended): `_merge_json_into` ignores every non-dict value, so a
recovered JSON array — whether of strings or of objects — contributes
nothing; in particular the all-string-array candidate leaves the
accumulator untouched. -/
theorem merge_ignores_non_dicts :
    (∀ (m : Merged) (v : PyVal), isDictV v = false → mergeJsonInto m v = m) ∧
    extractAllJsonBlocks [] [PyVal.str c6Input] = emptyMerged := by
  constructor
  · intro m v hv
    cases v with
    | dict kvs => simp [isDictV] at hv
    | str s => rfl
    | int n => rfl
    | bool b => rfl
    | none => rfl
    | list xs => rfl
  · decide

/-- C6 witness: the first part applied to a concrete array value. -/
theorem merge_ignores_non_dicts_witness :
    isDictV (PyVal.list [PyVal.str "alpha", PyVal.str "beta"]) = false ∧
    mergeJsonInto emptyMerged (PyVal.list [PyVal.str "alpha", PyVal.str "beta"]) =
      emptyMerged :=
  ⟨by decide,
    merge_ignores_non_dicts.1 emptyMerged (PyVal.list [PyVal.str "alpha", PyVal.str "beta"])
      (by decide)⟩

/-- C7 (counterexample): two recommendation rows with identical action
and rationale but different integer priorities render to distinct lines
(`1) A — Why: R` and `2) A — Why: R`), so the dedup pass keeps BOTH —
they are not collapsed into one row. -/
theorem rec_dedup_keeps_distinct_priorities :
    dedupeListKeepOrder
        (recLinesOf [RecRow.mk (PyVal.int 1) "A" "R", RecRow.mk (PyVal.int 2) "A" "R"]) =
      ["1) A " ++ emDashS ++ " Why: R", "2) A " ++ emDashS ++ " Why: R"] ∧
    (dedupeListKeepOrder
        (recLinesOf [RecRow.mk (PyVal.int 1) "A" "R", RecRow.mk (PyVal.int 2) "A" "R"])).length =
      2 := by
  constructor
  · decide
  · decide

/-- C7 (amended): recommendation deduplication keys on the full rendered
line — priority prefix included — so two rows collapse exactly when
their rendered lines coincide (and the first-seen line survives). -/
theorem rec_dedup_keys_on_rendered_line (r1 r2 : RecRow)
    (h : renderRecLine r1 = renderRecLine r2) (hne : renderRecLine r1 ≠ "") :
    dedupeListKeepOrder (recLinesOf [r1, r2]) = [renderRecLine r1] := by
  simp only [recLinesOf, List.map_cons, List.map_nil, ← h]
  simp [dedupeListKeepOrder, dedupeByAux, hne]

/-- C7 witness: two rows with no integer priority and the same
action/rationale render identically and collapse to one line. -/
theorem rec_dedup_keys_on_rendered_line_witness :
    renderRecLine (RecRow.mk PyVal.none "A" "R") =
        renderRecLine (RecRow.mk PyVal.none "A" "R") ∧
    renderRecLine (RecRow.mk PyVal.none "A" "R") ≠ "" ∧
    dedupeListKeepOrder
        (recLinesOf [RecRow.mk PyVal.none "A" "R", RecRow.mk PyVal.none "A" "R"]) =
      [renderRecLine (RecRow.mk PyVal.none "A" "R")] :=
  ⟨rfl, by decide,
    rec_dedup_keys_on_rendered_line (RecRow.mk PyVal.none "A" "R")
      (RecRow.mk PyVal.none "A" "R") rfl (by decide)⟩

/-- C8 (counterexample): a line matching the case-insensitive claimed
`[priority N] action — rationale` pattern does NOT produce the row
`{priority: 2, action: "Act", rationale: "Why"}` — the pattern
keyword in the code is the Norwegian `prioritet`, so the line falls through to the
dash split and gets the positional priority `1` with `[priority 2] Act`
as its action. -/
theorem priority_keyword_not_matched :
    (extractFromMarkdown emptyMerged c8BadInput).recommendations ≠
      [RecRow.mk (PyVal.int 2) "Act" "Why"] ∧
    (extractFromMarkdown emptyMerged c8BadInput).recommendations =
      [RecRow.mk (PyVal.int 1) "[priority 2] Act" "Why"] := by
  constructor
  · decide
  · decide

/-- C8 (amended): the recommendations flush matches the case-insensitive
`[prioritet N] action – rationale` pattern (Norwegian keyword, EN DASH or
hyphen, brackets optional) and keeps the captured priority; lines whose
greedy prefix reaches the end still match through regex backtracking —
`[prioritet 7]` frees the bracket (row `(7, "]", "")`) and
`prioritet 55` frees the last digit (row `(5, "5", "")`), while
`prioritet 5` and `[prioritet 5` have nothing to free and fail; every
non-matching line is split at its first EN DASH or hyphen and gets a
priority equal to its 1-based position within that flush — positions
restart at the next flush, as the second `Recommendations:` block
shows. -/
theorem prioritet_flush_rows :
    (extractFromMarkdown emptyMerged c8AmendedInput).recommendations =
      [RecRow.mk (PyVal.int 5) "Bygg API" "Raskere",
       RecRow.mk (PyVal.int 2) "Ansett folk" "Mangler",
       RecRow.mk (PyVal.int 3) "Tredje uten skilletegn" "",
       RecRow.mk (PyVal.int 7) "]" "",
       RecRow.mk (PyVal.int 5) "5" "",
       RecRow.mk (PyVal.int 1) "E" "F"] ∧
    matchPrioritet "[prioritet 5]" = some (5, "]", "") ∧
    matchPrioritet "prioritet 55" = some (5, "5", "") ∧
    matchPrioritet "prioritet 5" = Option.none ∧
    matchPrioritet "[prioritet 5" = Option.none := by
  refine ⟨?_, ?_, ?_, ?_, ?_⟩
  · decide
  · decide
  · decide
  · decide
  · decide

/-- C9 (counterexample): an EM-DASH-separated competitors line is NOT
split — the separator class of `_split3` holds hyphen, EN DASH, colon
and semicolon only, so the whole line lands in `name` with `position`
and `notes` empty, not `{name: "Acme", position: "Leader"}`. -/
theorem emdash_line_not_split :
    (extractFromMarkdown emptyMerged c9BadInput).competitors ≠
      [CompRow.mk "Acme" "Leader" ""] ∧
    (extractFromMarkdown emptyMerged c9BadInput).competitors =
      [CompRow.mk ("Acme " ++ emDashS ++ " Leader") "" ""] := by
  constructor
  · decide
  · decide

/-- C9 (amended): competitors/numbers lines are split into exactly three
fields at the first two occurrences of a separator from
{hyphen, EN DASH, colon, semicolon} with OPTIONAL surrounding whitespace
(`\s*`), missing trailing fields defaulting to the empty string: the
number rows below show an EN-DASH split with spaces, a colon split with
no whitespace at all, and a defaulted third field; `_split3` also cuts
`"a-b"` with no whitespace around the hyphen. -/
theorem split3_separator_rules :
    (extractFromMarkdown emptyMerged c9AmendedInput).numbers =
      [NumRow.mk "Market size" "10 Bn" "Gartner",
       NumRow.mk "CAGR" "7%" "",
       NumRow.mk "Revenue" "5M" ""] ∧
    split3 "a-b" = ("a", "b", "") := by
  constructor
  · decide
  · decide

/-- C10: `create_multislide_pptx` never propagates a failure — whatever
the slide-construction and save outcomes are, the result is either the
`file_path` argument it was given (success) or an error dict whose
`error` is `ppt_build_failed` and whose `details` is a string describing
the exception (a save failure carries the `Could not save pptx:`
prefix). -/
theorem createMultislidePptx_total (result : PyVal) (topic filePath : String)
    (buildOutcome saveOutcome : Except String Unit) :
    createMultislidePptx result topic filePath buildOutcome saveOutcome =
        PptResult.path filePath ∨
      ∃ d, createMultislidePptx result topic filePath buildOutcome saveOutcome =
        PptResult.err "ppt_build_failed" d := by
  cases buildOutcome with
  | error e => exact Or.inr ⟨e, rfl⟩
  | ok u =>
    cases saveOutcome with
    | error e => exact Or.inr ⟨"Could not save pptx: " ++ e, rfl⟩
    | ok u2 => exact Or.inl rfl

/-- An inert fence stage leaves any accumulator unchanged. -/
theorem fencePhase_inert (s : String) (h : fenceInert s = true) (m : Merged) :
    fencePhase m s = m := by
  rw [fencePhase]
  apply foldl_id_of_inert
  intro b hb acc
  have hb2 := (List.all_eq_true.mp h) b hb
  rw [Bool.and_eq_true] at hb2
  obtain ⟨h1, h2⟩ := hb2
  rcases hbs : braceScanJson (pyStrip b) with _ | ⟨x, xs⟩
  · simp only [hbs, List.foldl_nil]
    rcases hj : jsonLoads (pyStrip b) with _ | v
    · simp [hj]
    · rw [hj] at h2
      simp only [Bool.not_eq_true'] at h2
      simp [hj, h2]
  · rw [hbs] at h1
    simp at h1

/-- An inert bare-JSON stage leaves any accumulator unchanged. -/
theorem barePhase_inert (s : String) (h : bareInert s = true) (m : Merged) :
    barePhase m s = m := by
  simp only [bareInert] at h
  simp only [barePhase]
  split at h
  case isTrue hC =>
    rw [if_pos hC]
    rcases hj : jsonLoads (pyStrip s) with _ | v
    · simp [hj]
    · rw [hj] at h
      simp only [Bool.not_eq_true'] at h
      simp [hj, h]
  case isFalse hC =>
    rw [if_neg hC]
    rcases hbs : braceScanJson (pyStrip s) with _ | ⟨x, xs⟩
    · simp [hbs]
    · rw [hbs] at h
      simp at h

/-- A failed key-value parse leaves any accumulator unchanged. -/
theorem kvPhase_inert (s : String) (h : (parseSummaryKvBlock s).isNone = true)
    (m : Merged) : kvPhase m s = m := by
  rw [kvPhase]
  rcases hk : parseSummaryKvBlock s with _ | kv
  · rfl
  · rw [hk] at h
    simp at h

/-- When no line is a heading, the line loop of the segmenter never
flushes and never buffers into an active section. -/
theorem mdLoop_noheader : ∀ (lines buf : List String) (m : Merged),
    (∀ raw ∈ lines, pyStrip raw = "" ∨ lineIsHeader (pyStrip raw) = false) →
    mdLoop lines Option.none buf m = m := by
  intro lines
  induction lines with
  | nil => intro buf m _; rfl
  | cons raw rest ih =>
    intro buf m h
    have hrest : ∀ r ∈ rest, pyStrip r = "" ∨ lineIsHeader (pyStrip r) = false :=
      fun r hr => h r (List.mem_cons_of_mem _ hr)
    by_cases he : pyStrip raw = ""
    · simp only [mdLoop, he, if_pos]
      exact ih buf m hrest
    · have hh : lineIsHeader (pyStrip raw) = false := by
        rcases h raw (List.mem_cons_self _ _) with h1 | h2
        · exact absurd h1 he
        · exact h2
      rw [lineIsHeader] at hh
      obtain ⟨h1, h2⟩ := Bool.or_eq_false_iff.mp hh
      have hhc : (match (pyStrip raw).data with
          | c :: _ =>
            if c = '#' then normHeader (pyStrip (pyLStripSet ['#', ' '] (pyStrip raw)))
            else Option.none
          | [] => (Option.none : Option String)) = Option.none := by
        rcases hd : (pyStrip raw).data with _ | ⟨c, cs⟩
        · rfl
        · rw [hd] at h1
          by_cases hc : c = '#'
          · rcases hn : normHeader (pyStrip (pyLStripSet ['#', ' '] (pyStrip raw))) with _ | k
            · simp [hc]
            · rw [hc, hn] at h1
              simp at h1
          · simp [hc]
      have hplain : normHeader (pyRStripSet [':'] (pyLower (pyStrip raw))) = Option.none := by
        rcases hn : normHeader (pyRStripSet [':'] (pyLower (pyStrip raw))) with _ | k
        · rfl
        · rw [hn] at h2
          simp at h2
      simp only [mdLoop, he, if_neg, hhc, hplain, Option.isSome_none, Bool.false_eq_true,
        if_false]
      exact ih buf m hrest

/-- A fragment with no heading lines leaves any accumulator unchanged in
the markdown fallback. -/
theorem extractFromMarkdown_inert (s : String) (h : mdNoHeader s = true) (m : Merged) :
    extractFromMarkdown m s = m := by
  rw [extractFromMarkdown]
  by_cases hl : ((pySplitLines s).map pyRStrip).isEmpty
  · simp [hl]
  · simp only [hl, Bool.false_eq_true, if_false]
    apply mdLoop_noheader
    intro raw hraw
    have hb := (List.all_eq_true.mp h) raw hraw
    rw [Bool.or_eq_true] at hb
    rcases hb with h1 | h2
    · exact Or.inl (of_decide_eq_true h1)
    · exact Or.inr (by simpa using h2)

/-- C1: the engine is embedded as a total function (every shape of the
dynamic input is handled, so no exception escapes), its result always
has exactly the nine canonical keys — `summary` a string, the other
eight lists, never null or missing — and when every per-fragment
strategy recovers nothing and the URL harvest over the joined candidates
is empty, the result is the all-empty schema with the empty-string
summary (the engine does not invent a summary). -/
theorem extract_wellformed_and_empty_default (tasksOutput alsoConsider : List PyVal) :
    schemaWF (mergedToPy (extractAllJsonBlocks tasksOutput alsoConsider)) = true ∧
    (mergedToPy (extractAllJsonBlocks tasksOutput alsoConsider)).map Prod.fst = sectionKeys ∧
    ((∀ s ∈ collectCandidates tasksOutput alsoConsider, fragmentInert s = true) →
      findUrls (joinNl (collectCandidates tasksOutput alsoConsider)) = [] →
      extractAllJsonBlocks tasksOutput alsoConsider = emptyMerged) := by
  refine ⟨rfl, rfl, ?_⟩
  intro hin hurl
  have hconj : ∀ s ∈ collectCandidates tasksOutput alsoConsider,
      fenceInert s = true ∧ bareInert s = true ∧ (parseSummaryKvBlock s).isNone = true ∧
        mdNoHeader s = true := by
    intro s hs
    have hfi := hin s hs
    rw [fragmentInert, Bool.and_eq_true, Bool.and_eq_true, Bool.and_eq_true] at hfi
    exact ⟨hfi.1.1.1, hfi.1.1.2, hfi.1.2, hfi.2⟩
  rw [extractAllJsonBlocks]
  have h1 : (collectCandidates tasksOutput alsoConsider).foldl fencePhase emptyMerged =
      emptyMerged :=
    foldl_id_of_inert _ _ _ fun s hs acc => fencePhase_inert s (hconj s hs).1 acc
  have h2 : (collectCandidates tasksOutput alsoConsider).foldl barePhase emptyMerged =
      emptyMerged :=
    foldl_id_of_inert _ _ _ fun s hs acc => barePhase_inert s (hconj s hs).2.1 acc
  have h3 : (collectCandidates tasksOutput alsoConsider).foldl kvPhase emptyMerged =
      emptyMerged :=
    foldl_id_of_inert _ _ _ fun s hs acc => kvPhase_inert s (hconj s hs).2.2.1 acc
  have h4 : (collectCandidates tasksOutput alsoConsider).foldl extractFromMarkdown
      emptyMerged = emptyMerged :=
    foldl_id_of_inert _ _ _ fun s hs acc => extractFromMarkdown_inert s (hconj s hs).2.2.2 acc
  simp only [h1, h2, h3, h4, hurl, List.append_nil]

/-- C1 witness: a bundle holding one deeply malformed fragment
(unbalanced braces, truncated fence) and one prose fragment satisfies
every inertness hypothesis and maps to the all-empty schema. -/
theorem extract_wellformed_and_empty_default_witness :
    (∀ s ∈ collectCandidates [c1WitnessTask] [c1WitnessExtra], fragmentInert s = true) ∧
    findUrls (joinNl (collectCandidates [c1WitnessTask] [c1WitnessExtra])) = [] ∧
    extractAllJsonBlocks [c1WitnessTask] [c1WitnessExtra] = emptyMerged :=
  ⟨by decide, by decide,
    (extract_wellformed_and_empty_default [c1WitnessTask] [c1WitnessExtra]).2.2
      (by decide) (by decide)⟩

end PptBuilder
